import Mathlib

/-!
# Google-to-AWS identity federation: credential materialisation

A shallow embedding of `main.go`: the three pipeline stages
(`generateGoogleIDToken`, `assumeAWSRole`, `writeAWSCredentials`) and `main`,
over explicit models of what the program calls but does not define:

* `fmt.Sprintf` / `fmt.Errorf` for the verbs the program uses;
* `aws.ToString`;
* `filepath.Dir` (with `filepath.Clean`) for slash-separated paths;
* a file system with directories, files, owner write permission and a working
  directory, and on it `os.MkdirAll` and `os.WriteFile`;
* the identity backend and the token-exchange service, which are parameters
  (`Env`): every answer they can give is covered by quantifying over `Env`.

Go strings are modelled by `String`, Go errors by their `Error()` text, and a Go
pointer by `Option`.
-/

namespace Federation

/-! ## `fmt` -/

namespace fmt

/-- Text Go prints for operands that no verb consumed: `%!(EXTRA string=a, string=b)`
without the surrounding brackets. Operands are modelled by their text. -/
def extraOperands : List String → List Char
  | [] => []
  | [a] => "string=".data ++ a.data
  | a :: b :: rest => "string=".data ++ a.data ++ ", ".data ++ extraOperands (b :: rest)

/-- Formatting loop of `fmt.Sprintf` on the characters of the format, for verbs
written without flags, width or precision. `%s` and `%v` print the next operand (a
string, or an error through its `Error()` text) as it is; `%%` prints a percent sign;
a verb without operand prints `%!x(MISSING)`, another verb `%!x(string=...)`, a
trailing `%` prints `%!(NOVERB)`, and unused operands are reported at the end. -/
def formatChars : List Char → List String → List Char
  | [], [] => []
  | [], a :: rest => "%!(EXTRA ".data ++ extraOperands (a :: rest) ++ [')']
  | c :: cs, args =>
    if c = '%' then
      match cs with
      | [] => "%!(NOVERB)".data ++ formatChars [] args
      | v :: cs' =>
        if v = '%' then '%' :: formatChars cs' args
        else
          match args with
          | [] => ['%', '!', v] ++ "(MISSING)".data ++ formatChars cs' []
          | a :: rest =>
            if v = 's' ∨ v = 'v' then a.data ++ formatChars cs' rest
            else ['%', '!', v] ++ "(string=".data ++ a.data ++ [')'] ++ formatChars cs' rest
    else c :: formatChars cs args

/-- Model of `fmt.Sprintf(format, args...)` for string and error operands. -/
def Sprintf (format : String) (args : List String) : String :=
  ⟨formatChars format.data args⟩

/-- Model of `fmt.Errorf`: an error whose text is the formatted message. -/
def Errorf (format : String) (args : List String) : String :=
  Sprintf format args

end fmt

/-! ## `aws` -/

namespace aws

/-- Model of `aws.ToString`: the pointed-to string, or the empty string for a nil pointer. -/
def ToString (p : Option String) : String :=
  match p with
  | some s => s
  | none => ""

end aws

/-! ## `path/filepath` (slash-separated paths, no volume names) -/

namespace filepath

/-- Pieces of a path between its separators, empty pieces included. -/
def splitSep : List Char → List (List Char)
  | [] => [[]]
  | c :: cs =>
    if c = '/' then [] :: splitSep cs
    else
      match splitSep cs with
      | [] => [[c]]
      | piece :: pieces => (c :: piece) :: pieces

/-- Pieces joined by single separators. -/
def joinSep : List (List Char) → List Char
  | [] => []
  | [piece] => piece
  | piece :: next :: pieces => piece ++ '/' :: joinSep (next :: pieces)

/-- One element of the path seen by `Clean`; `kept` holds the elements kept so far, the
last one first. Empty elements and `.` are dropped; `..` removes the element before it,
is dropped at the root of a rooted path, and is kept at the front of a relative one. -/
def cleanStep (rooted : Bool) (kept : List (List Char)) (elem : List Char) : List (List Char) :=
  if elem = [] ∨ elem = ['.'] then kept
  else if elem = ['.', '.'] then
    match kept with
    | top :: below => if top = ['.', '.'] then elem :: kept else below
    | [] => if rooted then [] else [elem]
  else elem :: kept

/-- Model of `filepath.Clean` on characters: the shortest equivalent path by lexical
processing; the empty result of a relative path is `.`. -/
def cleanChars (cs : List Char) : List Char :=
  let rooted := cs.head? = some '/'
  let body := joinSep ((splitSep cs).foldl (cleanStep rooted) []).reverse
  if rooted then '/' :: body else if body = [] then ['.'] else body

/-- Model of `filepath.Clean`. -/
def Clean (path : String) : String := ⟨cleanChars path.data⟩

/-- Part of the path up to and including its last separator (empty without one). -/
def upToLastSep (cs : List Char) : List Char :=
  (cs.reverse.dropWhile (fun c => c != '/')).reverse

/-- Model of `filepath.Dir`: all but the last element of the path, cleaned. -/
def Dir (path : String) : String := ⟨cleanChars (upToLastSep path.data)⟩

end filepath

/-! ## File system and `os`

Entries are keyed by their absolute location, the list of names from the root (the
root itself is `[]`). There are no symbolic links, one user (the owner write bit of a
permission word decides whether an entry may be written or a directory be added to;
every directory may be searched), no umask, no quota and no limit on the length of a
name or of a path: a write that was allowed to start completes. The entries need not
form a tree: the lemmas hold for every state. -/

namespace os

/-- Error numbers the modelled calls return. -/
inductive Errno
  | ENOENT
  | ENOTDIR
  | EEXIST
  | EACCES
  | EISDIR
  deriving DecidableEq, Repr

/-- Text of an error number, as `syscall.Errno.Error` gives it. -/
def Errno.Error : Errno → String
  | .ENOENT => "no such file or directory"
  | .ENOTDIR => "not a directory"
  | .EEXIST => "file exists"
  | .EACCES => "permission denied"
  | .EISDIR => "is a directory"

/-- Text of an `*fs.PathError`: operation, path and cause. -/
def PathError (op path : String) (e : Errno) : String :=
  op ++ " " ++ path ++ ": " ++ e.Error

/-- What a location holds. -/
inductive Entry
  | dir (perm : Nat)
  | file (perm : Nat) (data : String)
  deriving DecidableEq, Repr

/-- State of the file system: the entries and the working directory of the process. -/
structure FS where
  entries : List String → Option Entry
  cwd : List String

/-- The file system with one location (re)bound. -/
def FS.set (fs : FS) (key : List String) (e : Entry) : FS :=
  ⟨fun k => if k = key then some e else fs.entries k, fs.cwd⟩

/-- Owner write bit (`0200`) of a permission word. -/
def ownerWritable (perm : Nat) : Bool := perm / 128 % 2 == 1

/-- Names of a path, in order; empty pieces (repeated or trailing separators) vanish. -/
def elements (path : String) : List String :=
  ((filepath.splitSep path.data).filter (fun piece => !piece.isEmpty)).map String.mk

/-- Where resolution of a path starts: the root for a rooted path, else the working directory. -/
def origin (fs : FS) (path : String) : List String :=
  if path.data.head? = some '/' then [] else fs.cwd

/-- Whether the path ends in a separator. -/
def trailingSep (path : String) : Bool := path.data.getLast? == some '/'

/-- Path resolution: from location `cur`, follow the names. Every location left behind
must be a directory; `.` stays, `..` goes to the parent (the root is its own parent).
The location reached is returned unchecked. -/
def walk (fs : FS) : List String → List String → Except Errno (List String)
  | cur, [] => .ok cur
  | cur, name :: names =>
    match fs.entries cur with
    | none => .error .ENOENT
    | some (.file _ _) => .error .ENOTDIR
    | some (.dir _) =>
      if name = "." then walk fs cur names
      else if name = ".." then walk fs cur.dropLast names
      else walk fs (cur ++ [name]) names

/-- Location and entry a path names. -/
def lookup (fs : FS) (path : String) : Except Errno (List String × Entry) :=
  if path = "" then .error .ENOENT
  else
    match walk fs (origin fs path) (elements path) with
    | .error e => .error e
    | .ok key =>
      match fs.entries key with
      | none => .error .ENOENT
      | some (.dir perm) => .ok (key, .dir perm)
      | some (.file perm data) =>
        if trailingSep path then .error .ENOTDIR else .ok (key, .file perm data)

/-- Model of `os.Stat` (and `os.Lstat`, there being no links): the entry a path names. -/
def Stat (path : String) (fs : FS) : Except Errno Entry :=
  match lookup fs path with
  | .error e => .error e
  | .ok (_, entry) => .ok entry

/-- Data of the file a path names, if it names a file. -/
def contentAt (fs : FS) (path : String) : Option String :=
  match lookup fs path with
  | .ok (_, .file _ data) => some data
  | _ => none

/-- Whether a path names a directory. -/
def isDirAt (fs : FS) (path : String) : Bool :=
  match lookup fs path with
  | .ok (_, .dir _) => true
  | _ => false

/-- Whether the names, followed from `cur`, lead to a directory. -/
def leadsToDir (fs : FS) (cur : List String) (names : List String) : Bool :=
  match walk fs cur names with
  | .ok key =>
    match fs.entries key with
    | some (.dir _) => true
    | _ => false
  | .error _ => false

/-- Model of `os.Mkdir(name, perm)`: one new directory in an existing, writable parent. -/
def Mkdir (name : String) (perm : Nat) (fs : FS) : Except String Unit × FS :=
  if name = "" then (.error (PathError "mkdir" name .ENOENT), fs)
  else
    match (elements name).getLast? with
    | none => (.error (PathError "mkdir" name .EEXIST), fs)
    | some last =>
      match walk fs (origin fs name) (elements name).dropLast with
      | .error e => (.error (PathError "mkdir" name e), fs)
      | .ok parent =>
        match fs.entries parent with
        | none => (.error (PathError "mkdir" name .ENOENT), fs)
        | some (.file _ _) => (.error (PathError "mkdir" name .ENOTDIR), fs)
        | some (.dir pperm) =>
          if last = "." ∨ last = ".." then (.error (PathError "mkdir" name .EEXIST), fs)
          else
            match fs.entries (parent ++ [last]) with
            | some _ => (.error (PathError "mkdir" name .EEXIST), fs)
            | none =>
              if ownerWritable pperm then (.ok (), fs.set (parent ++ [last]) (.dir perm))
              else (.error (PathError "mkdir" name .EACCES), fs)

/-- The path up to the start of its last element, last character first: the trailing
separators and then the last element are taken off (`path[:j]` of `MkdirAll`, reversed). -/
def beforeLastElement (cs : List Char) : List Char :=
  (cs.reverse.dropWhile (fun c => c == '/')).dropWhile (fun c => c != '/')

/-- Parent handed to the recursive call of `MkdirAll`: the path up to its last element,
without the separator before that element (`path[:j-1]`). -/
def parentOf (cs : List Char) : List Char :=
  ((beforeLastElement cs).drop 1).reverse

/-- Body of `os.MkdirAll`, as in the Go releases up to 1.21: the parent is handed over
without its trailing separator, and there is a parent to make when more than one
character stands before the last element (`j > 1`). It has a bound on the depth of the
recursion; `none` when the bound is reached. -/
def MkdirAllFuel : Nat → String → Nat → FS → Option (Except String Unit × FS)
  | 0, _, _, _ => none
  | fuel + 1, path, perm, fs =>
    match Stat path fs with
    | .ok (.dir _) => some (.ok (), fs)
    | .ok (.file _ _) => some (.error (PathError "mkdir" path .ENOTDIR), fs)
    | .error _ =>
      let parent : String := ⟨parentOf path.data⟩
      match (if (beforeLastElement path.data).length > 1 then MkdirAllFuel fuel parent perm fs
        else some (.ok (), fs)) with
      | none => none
      | some (.error err, fs1) => some (.error err, fs1)
      | some (.ok (), fs1) =>
        match Mkdir path perm fs1 with
        | (.ok (), fs2) => some (.ok (), fs2)
        | (.error err, fs2) =>
          match Stat path fs2 with
          | .ok (.dir _) => some (.ok (), fs2)
          | _ => some (.error err, fs2)

/-- Model of `os.MkdirAll(path, perm)`: the directory and every missing parent. Each
recursive call is on a shorter path, so the bound is never reached
(`MkdirAllFuel_isSome`). -/
def MkdirAll (path : String) (perm : Nat) (fs : FS) : Except String Unit × FS :=
  match MkdirAllFuel (path.length + 1) path perm fs with
  | some r => r
  | none => (.error (PathError "mkdir" path .ENOENT), fs)

/-- Model of `os.WriteFile(name, data, perm)`: open with create and truncate, write,
close. An existing file keeps its permissions; a new one gets `perm`. -/
def WriteFile (name : String) (data : String) (perm : Nat) (fs : FS) : Except String Unit × FS :=
  if name = "" then (.error (PathError "open" name .ENOENT), fs)
  else
    match (elements name).getLast? with
    | none => (.error (PathError "open" name .EISDIR), fs)
    | some last =>
      match walk fs (origin fs name) (elements name).dropLast with
      | .error e => (.error (PathError "open" name e), fs)
      | .ok parent =>
        match fs.entries parent with
        | none => (.error (PathError "open" name .ENOENT), fs)
        | some (.file _ _) => (.error (PathError "open" name .ENOTDIR), fs)
        | some (.dir pperm) =>
          if last = "." ∨ last = ".." ∨ trailingSep name = true then
            (.error (PathError "open" name .EISDIR), fs)
          else
            match fs.entries (parent ++ [last]) with
            | some (.dir _) => (.error (PathError "open" name .EISDIR), fs)
            | some (.file fperm _) =>
              if ownerWritable fperm then (.ok (), fs.set (parent ++ [last]) (.file fperm data))
              else (.error (PathError "open" name .EACCES), fs)
            | none =>
              if ownerWritable pperm then (.ok (), fs.set (parent ++ [last]) (.file perm data))
              else (.error (PathError "open" name .EACCES), fs)

end os

/-! ## External services -/

/-- Token of `oauth2.Token`; only the field the program reads. -/
structure Token where
  AccessToken : String
  deriving DecidableEq, Repr

/-- Token source of the identity backend: what its `Token()` call answers. -/
structure TokenSource where
  Token : Except String Federation.Token

/-- Credentials provider handed to the configuration loader. -/
inductive CredentialsProvider
  | AnonymousCredentials
  deriving DecidableEq, Repr

/-- Option of `config.LoadDefaultConfig`. -/
inductive LoadOption
  | WithCredentialsProvider (provider : CredentialsProvider)
  deriving DecidableEq, Repr

/-- Client configuration `aws.Config`, as far as the program determines it. -/
structure Config where
  Credentials : CredentialsProvider
  Region : String
  deriving DecidableEq, Repr

/-- Request `sts.AssumeRoleWithWebIdentityInput`; the fields the program sets. -/
structure AssumeRoleWithWebIdentityInput where
  RoleArn : Option String
  RoleSessionName : Option String
  WebIdentityToken : Option String
  deriving DecidableEq, Repr

/-- Temporary credentials `types.Credentials`; `Expiration` in seconds since the epoch. -/
structure Credentials where
  AccessKeyId : Option String
  SecretAccessKey : Option String
  SessionToken : Option String
  Expiration : Option Nat
  deriving DecidableEq, Repr

/-- Response `sts.AssumeRoleWithWebIdentityOutput`; the field the program reads. -/
structure AssumeRoleWithWebIdentityOutput where
  Credentials : Option Federation.Credentials
  deriving DecidableEq, Repr

/-- Answers of the services outside the program during one run: the identity backend
(`idtoken.NewTokenSource`), the configuration loader (`config.LoadDefaultConfig`) and
the token-exchange service (`AssumeRoleWithWebIdentity`). None of them writes to the
file system. -/
structure Env where
  NewTokenSource : String → Except String TokenSource
  LoadDefaultConfig : List LoadOption → Except String Config
  AssumeRoleWithWebIdentity :
    Config → AssumeRoleWithWebIdentityInput → Except String AssumeRoleWithWebIdentityOutput

/-- Calls that leave the program, in the order they are made. -/
inductive Event
  | NewTokenSource (audience : String)
  | Token
  | LoadDefaultConfig (opts : List LoadOption)
  | AssumeRoleWithWebIdentity (input : AssumeRoleWithWebIdentityInput)
  | MkdirAll (path : String) (perm : Nat)
  | WriteFile (name : String) (data : String) (perm : Nat)
  | Log (line : String)
  | Panic (msg : String)
  deriving DecidableEq, Repr

/-- Whether the call goes to the trust domain (client configuration or exchange). -/
def Event.isExchange : Event → Bool
  | .LoadDefaultConfig _ => true
  | .AssumeRoleWithWebIdentity _ => true
  | _ => false

/-- Whether the call can change the file system. -/
def Event.isFileSystem : Event → Bool
  | .MkdirAll _ _ => true
  | .WriteFile _ _ _ => true
  | _ => false

/-- Whether the call writes a file. -/
def Event.isWriteFile : Event → Bool
  | .WriteFile _ _ _ => true
  | _ => false

/-- World the program runs in: the file system and the calls made so far. -/
structure World where
  fs : os.FS
  trace : List Event

/-- The world after one more call. -/
def World.emit (w : World) (e : Event) : World := ⟨w.fs, w.trace ++ [e]⟩

/-- How a function call ends: it returns its `error` result (`none` for nil), or panics. -/
inductive Outcome
  | returned (err : Option String)
  | panicked (msg : String)
  deriving DecidableEq, Repr

/-- Text of the run-time panic for a nil pointer dereference. -/
def nilDereference : String :=
  "runtime error: invalid memory address or nil pointer dereference"

/-! ## The program (`main.go`) -/

/-- Embedding of `generateGoogleIDToken`, `main.go` lines 45-56. -/
def generateGoogleIDToken (env : Env) (audience : String) (w : World) :
    Except String String × World :=
  let w1 := w.emit (.NewTokenSource audience)
  match env.NewTokenSource audience with
  | .error err => (.error (fmt.Errorf "error creating token source: %v" [err]), w1)
  | .ok tokenSource =>
    let w2 := w1.emit .Token
    match tokenSource.Token with
    | .error err => (.error (fmt.Errorf "error retrieving token: %v" [err]), w2)
    | .ok token => (.ok token.AccessToken, w2)

/-- Embedding of `assumeAWSRole`, `main.go` lines 58-84. A nil `Credentials` in the
response is returned as it is. -/
def assumeAWSRole (env : Env) (arn : String) (sessionName : String) (idToken : String)
    (w : World) : Except String (Option Credentials) × World :=
  let opts := [LoadOption.WithCredentialsProvider .AnonymousCredentials]
  let w1 := w.emit (.LoadDefaultConfig opts)
  match env.LoadDefaultConfig opts with
  | .error err => (.error (fmt.Errorf "error loading config: %v " [err]), w1)
  | .ok cfg =>
    let request : AssumeRoleWithWebIdentityInput :=
      ⟨some arn, some sessionName, some idToken⟩
    let w2 := w1.emit (.AssumeRoleWithWebIdentity request)
    match env.AssumeRoleWithWebIdentity cfg request with
    | .error err => (.error (fmt.Errorf "error assuming role: %v " [err]), w2)
    | .ok response => (.ok response.Credentials, w2)

/-- The format of the credentials file, `main.go` lines 87-90. -/
def credentialsTemplate : String :=
  "[default]\n" ++
    "aws_access_key_id = %s\n" ++
    "aws_secret_access_key = %s\n" ++
    "aws_session_token = %s\n"

/-- The `content` of `writeAWSCredentials`, `main.go` lines 92-97. -/
def credentialsContent (credentials : Credentials) : String :=
  fmt.Sprintf credentialsTemplate
    [aws.ToString credentials.AccessKeyId,
     aws.ToString credentials.SecretAccessKey,
     aws.ToString credentials.SessionToken]

/-- Embedding of `writeAWSCredentials`, `main.go` lines 86-109. Reading a field of a
nil `credentials` panics before the file system is touched. -/
def writeAWSCredentials (credentials : Option Credentials) (path : String) (w : World) :
    Outcome × World :=
  match credentials with
  | none => (.panicked nilDereference, w.emit (.Panic nilDereference))
  | some creds =>
    let content := credentialsContent creds
    let dir := filepath.Dir path
    let w1 := w.emit (.MkdirAll dir 0o755)
    match os.MkdirAll dir 0o755 w1.fs with
    | (.error err, fs1) =>
      (.returned (some (fmt.Errorf "error creating directory %s: %v" [dir, err])), ⟨fs1, w1.trace⟩)
    | (.ok (), fs1) =>
      let w2 : World := ⟨fs1, w1.trace ++ [.WriteFile path content 0o644]⟩
      match os.WriteFile path content 0o644 w2.fs with
      | (.error err, fs2) =>
        (.returned (some (fmt.Errorf "error writing file: %v " [err])), ⟨fs2, w2.trace⟩)
      | (.ok (), fs2) => (.returned none, ⟨fs2, w2.trace⟩)

/-- The world after `log.Fatalf`: the line is logged; the process then exits with status 1. -/
def logFatalf (format : String) (args : List String) (w : World) : Nat × World :=
  (1, w.emit (.Log (fmt.Sprintf format args)))

/-- Embedding of `main`, `main.go` lines 23-43, after `flag.Parse`: `roleArn` and
`outputPath` are the values of the two flags. The result is the exit status of the
process (2 after a panic) and the world it leaves. -/
def main (env : Env) (roleArn outputPath : String) (w : World) : Nat × World :=
  match generateGoogleIDToken env "gcp" w with
  | (.error err, w1) => logFatalf "failed to generate Google ID token: %v" [err] w1
  | (.ok idToken, w1) =>
    let sessionName := "dataflow"
    match assumeAWSRole env roleArn sessionName idToken w1 with
    | (.error err, w2) => logFatalf "failed to assume AWS role: %v" [err] w2
    | (.ok credentials, w2) =>
      match writeAWSCredentials credentials outputPath w2 with
      | (.panicked _, w3) => (2, w3)
      | (.returned (some err), w3) =>
        logFatalf "failed to write AWS credentials to %s: %v" [outputPath, err] w3
      | (.returned none, w3) =>
        (0, w3.emit (.Log (fmt.Sprintf "successfully wrote AWS credentials to: %s" [outputPath])))

/-! ## Reading a credentials file back -/

namespace ini

/-- Lines of a text: the pieces that line feeds end, and a last piece without one. -/
def lines : List Char → List (List Char)
  | [] => []
  | c :: cs =>
    if c = '\n' then [] :: lines cs
    else
      match lines cs with
      | [] => [[c]]
      | l :: ls => (c :: l) :: ls

/-- A line cut at its first ` = `: what stands before and after it. -/
def cutAtEquals : List Char → Option (List Char × List Char)
  | [] => none
  | c :: cs =>
    match c, cs with
    | ' ', '=' :: ' ' :: value => some ([], value)
    | _, _ =>
      match cutAtEquals cs with
      | some (key, value) => some (c :: key, value)
      | none => none

/-- Kinds of line in a credentials file. -/
inductive Line
  | header (name : String)
  | keyValue (key : String) (value : String)
  | other (text : String)
  deriving DecidableEq, Repr

/-- Kind of a line: `[name]` is a section header, `key = value` a key-value line. -/
def classify (l : List Char) : Line :=
  match l with
  | '[' :: rest =>
    if rest.getLast? = some ']' then .header ⟨rest.dropLast⟩
    else
      match cutAtEquals l with
      | some (key, value) => .keyValue ⟨key⟩ ⟨value⟩
      | none => .other ⟨l⟩
  | _ =>
    match cutAtEquals l with
    | some (key, value) => .keyValue ⟨key⟩ ⟨value⟩
    | none => .other ⟨l⟩

/-- Whether a line is a section header. -/
def Line.isHeader : Line → Bool
  | .header _ => true
  | _ => false

/-- Settings read from classified lines, each with the section it stands in; lines
before the first header and lines of no kind are skipped. -/
def settings : Option String → List Line → List ((String × String) × String)
  | _, [] => []
  | _, .header name :: ls => settings (some name) ls
  | some sect, .keyValue key value :: ls => ((sect, key), value) :: settings (some sect) ls
  | none, .keyValue _ _ :: ls => settings none ls
  | cur, .other _ :: ls => settings cur ls

/-- Modelled from the spec: the reader of the credentials file, which is not part of
the program (the file is "consumed by other tooling"). Following the format of the
spec, section 6, a file is a section header line `[name]` followed by `key = value`
lines; the value of a key in a profile is the text after ` = ` on the last line that
sets it in that profile. -/
def get (content : String) (profile key : String) : Option String :=
  ((settings none ((lines content.data).map classify)).reverse.lookup (profile, key))

end ini

/-- Whether the characters start with `sub`. -/
def startsWith : List Char → List Char → Bool
  | [], _ => true
  | _ :: _, [] => false
  | a :: sub, c :: cs => a == c && startsWith sub cs

/-- Whether `sub` occurs somewhere in the characters. -/
def occursInChars (sub : List Char) : List Char → Bool
  | [] => sub.isEmpty
  | c :: cs => startsWith sub (c :: cs) || occursInChars sub cs

/-- Whether the text `sub` occurs in the text `s`. -/
def occursIn (sub s : String) : Bool := occursInChars sub.data s.data

/-- Whether a text has no line feed. -/
def singleLine (s : String) : Prop := '\n' ∉ s.data

instance (s : String) : Decidable (singleLine s) := by
  unfold singleLine
  infer_instance

/-! ## Relations between file systems, and the worlds used as examples -/

/-- Every directory of `fs` is the same directory in `fs2`, and the working directory
is the same. -/
def KeepsDirs (fs fs2 : os.FS) : Prop :=
  fs2.cwd = fs.cwd ∧ ∀ k p, fs.entries k = some (.dir p) → fs2.entries k = some (.dir p)

/-- The file system `fs2` is `fs` with, at most, directories added at locations that
held nothing: no entry of `fs` is changed or removed, and no file is new. -/
def OnlyAddsDirs (fs fs2 : os.FS) : Prop :=
  fs2.cwd = fs.cwd ∧
    ∀ k, fs2.entries k = fs.entries k ∨ (fs.entries k = none ∧ ∃ p, fs2.entries k = some (.dir p))

/-- Calls made between the world `w` and a later world `w2`. -/
def World.newEvents (w w2 : World) : List Event := w2.trace.drop w.trace.length

/-- A file system that holds only its root directory, with the given permissions; the
working directory is the root. -/
def rootOnly (perm : Nat) : os.FS :=
  ⟨fun k => if k = [] then some (.dir perm) else none, []⟩

/-- The credentials of the scenario in the spec, section 8. -/
def exampleCredentials : Credentials :=
  ⟨some "AKIA_EXAMPLE", some "secret123", some "sessiontokenXYZ", none⟩

/-- Services that all answer: the identity backend issues `token`, the exchange service
returns `creds`. -/
def servicesUp (token : String) (creds : Option Credentials) : Env :=
  ⟨fun _ => .ok ⟨.ok ⟨token⟩⟩, fun _ => .ok ⟨.AnonymousCredentials, "us-east-1"⟩,
    fun _ _ => .ok ⟨creds⟩⟩

/-- Services where no token source can be created. -/
def identityUnavailable (cause : String) : Env :=
  ⟨fun _ => .error cause, fun _ => .ok ⟨.AnonymousCredentials, "us-east-1"⟩,
    fun _ _ => .ok ⟨none⟩⟩

/-- Services where the token source cannot produce a token. -/
def tokenRefused (cause : String) : Env :=
  ⟨fun _ => .ok ⟨.error cause⟩, fun _ => .ok ⟨.AnonymousCredentials, "us-east-1"⟩,
    fun _ _ => .ok ⟨none⟩⟩

/-- Services where the client configuration cannot be loaded. -/
def configBroken (token cause : String) : Env :=
  ⟨fun _ => .ok ⟨.ok ⟨token⟩⟩, fun _ => .error cause, fun _ _ => .ok ⟨none⟩⟩

/-- Services where the exchange service rejects the request. -/
def exchangeRejects (token cause : String) : Env :=
  ⟨fun _ => .ok ⟨.ok ⟨token⟩⟩, fun _ => .ok ⟨.AnonymousCredentials, "us-east-1"⟩,
    fun _ _ => .error cause⟩

/-! ## Lemmas on the file system -/

open os

theorem walk_append (fs : FS) (xs ys : List String) (cur : List String) :
    walk fs cur (xs ++ ys) =
      match walk fs cur xs with
      | .ok k => walk fs k ys
      | .error e => .error e := by
  induction xs generalizing cur with
  | nil => simp [walk]
  | cons x xs ih =>
    simp only [List.cons_append, walk]
    cases hcur : fs.entries cur with
    | none => simp
    | some e =>
      cases e with
      | file p d => simp
      | dir p =>
        simp only
        split_ifs <;> exact ih _

theorem walk_keepsDirs {fs fs' : FS} (h : KeepsDirs fs fs') (names : List String) :
    ∀ cur key, walk fs cur names = .ok key → walk fs' cur names = .ok key := by
  induction names with
  | nil => intro cur key hw; simpa [walk] using hw
  | cons x xs ih =>
    intro cur key hw
    simp only [walk] at hw ⊢
    cases hcur : fs.entries cur with
    | none => simp [hcur] at hw
    | some e =>
      cases e with
      | file p d => simp [hcur] at hw
      | dir p =>
        rw [h.2 cur p hcur]
        simp only [hcur] at hw
        simp only
        split_ifs at hw ⊢ <;> exact ih _ _ hw

theorem onlyAddsDirs_refl (fs : FS) : OnlyAddsDirs fs fs := ⟨rfl, fun _ => Or.inl rfl⟩

theorem onlyAddsDirs_trans {a b c : FS} (h1 : OnlyAddsDirs a b) (h2 : OnlyAddsDirs b c) :
    OnlyAddsDirs a c := by
  refine ⟨h2.1.trans h1.1, fun k => ?_⟩
  rcases h1.2 k with e1 | ⟨n1, p1, d1⟩
  · rcases h2.2 k with e2 | ⟨n2, p2, d2⟩
    · exact Or.inl (e2.trans e1)
    · exact Or.inr ⟨e1 ▸ n2, p2, d2⟩
  · rcases h2.2 k with e2 | ⟨n2, p2, d2⟩
    · exact Or.inr ⟨n1, p1, e2.trans d1⟩
    · rw [d1] at n2; cases n2

theorem onlyAddsDirs_keepsDirs {a b : FS} (h : OnlyAddsDirs a b) : KeepsDirs a b := by
  refine ⟨h.1, fun k p hk => ?_⟩
  rcases h.2 k with e | ⟨n, _⟩
  · rw [e, hk]
  · rw [hk] at n; cases n

theorem set_onlyAddsDirs (fs : FS) (key : List String) (perm : Nat) (h : fs.entries key = none) :
    OnlyAddsDirs fs (fs.set key (.dir perm)) := by
  refine ⟨rfl, fun k => ?_⟩
  by_cases hk : k = key
  · subst hk; right; exact ⟨h, perm, by simp [FS.set]⟩
  · left; simp [FS.set, hk]

theorem set_keepsDirs (fs : FS) (key : List String) (e : Entry)
    (h : ∀ p, fs.entries key ≠ some (.dir p)) : KeepsDirs fs (fs.set key e) := by
  refine ⟨rfl, fun k p hk => ?_⟩
  have : k ≠ key := fun hh => h p (hh ▸ hk)
  simp [FS.set, this, hk]

theorem walk_last {fs : FS} {name : String} {last : String} {parent : List String} {pperm : Nat}
    (hlast : (elements name).getLast? = some last)
    (hw : walk fs (origin fs name) (elements name).dropLast = .ok parent)
    (hp : fs.entries parent = some (.dir pperm))
    (hdots : ¬(last = "." ∨ last = "..")) :
    walk fs (origin fs name) (elements name) = .ok (parent ++ [last]) := by
  have hsplit : (elements name).dropLast ++ [last] = elements name :=
    List.dropLast_append_getLast? last (by simp [hlast])
  rw [← hsplit, walk_append, hw]
  push_neg at hdots
  simp [walk, hp, hdots.1, hdots.2]

theorem origin_of_cwd {fs fs' : FS} (h : fs'.cwd = fs.cwd) (name : String) :
    origin fs' name = origin fs name := by
  simp [origin, h]

/-- What a successful `WriteFile` did. -/
theorem WriteFile_ok_inv {name data : String} {perm : Nat} {fs fs' : FS}
    (h : WriteFile name data perm fs = (.ok (), fs')) :
    ∃ parent last pperm fperm,
      name ≠ "" ∧ (elements name).getLast? = some last ∧
      walk fs (origin fs name) (elements name).dropLast = .ok parent ∧
      fs.entries parent = some (.dir pperm) ∧ ¬(last = "." ∨ last = "..") ∧
      trailingSep name = false ∧
      ((∃ old, fs.entries (parent ++ [last]) = some (.file fperm old) ∧ ownerWritable fperm = true) ∨
        (fs.entries (parent ++ [last]) = none ∧ fperm = perm)) ∧
      fs' = fs.set (parent ++ [last]) (.file fperm data) := by
  unfold WriteFile at h
  by_cases hne : name = ""
  · simp [hne] at h
  rw [if_neg hne] at h
  cases hlast : (elements name).getLast? with
  | none => simp [hlast] at h
  | some last =>
    simp only [hlast] at h
    cases hw : walk fs (origin fs name) (elements name).dropLast with
    | error e => simp [hw] at h
    | ok parent =>
      simp only [hw] at h
      cases hp : fs.entries parent with
      | none => simp [hp] at h
      | some ent =>
        cases ent with
        | file p d => simp [hp] at h
        | dir pperm =>
          simp only [hp] at h
          by_cases hd : last = "." ∨ last = ".." ∨ trailingSep name = true
          · simp [if_pos hd] at h
          rw [if_neg hd] at h
          have hd1 : ¬(last = "." ∨ last = "..") := fun hh => hd (by tauto)
          have hd2 : trailingSep name = false := by
            cases ht : trailingSep name
            · rfl
            · exact absurd (by simp [ht]) hd
          cases ht : fs.entries (parent ++ [last]) with
          | none =>
            simp only [ht] at h
            by_cases hwr : ownerWritable pperm = true
            · rw [if_pos hwr] at h
              refine ⟨parent, last, pperm, perm, hne, rfl, rfl, hp, hd1, hd2, Or.inr ⟨ht, rfl⟩, ?_⟩
              simp only [Prod.mk.injEq, true_and] at h
              exact h.symm
            · simp [if_neg hwr] at h
          | some ent =>
            cases ent with
            | dir p => simp [ht] at h
            | file fperm old =>
              simp only [ht] at h
              by_cases hwr : ownerWritable fperm = true
              · rw [if_pos hwr] at h
                refine ⟨parent, last, pperm, fperm, hne, rfl, rfl, hp, hd1, hd2,
                  Or.inl ⟨old, ht, hwr⟩, ?_⟩
                simp only [Prod.mk.injEq, true_and] at h
                exact h.symm
              · simp [if_neg hwr] at h

theorem WriteFile_keepsDirs {name data : String} {perm : Nat} {fs fs' : FS}
    (h : WriteFile name data perm fs = (.ok (), fs')) : KeepsDirs fs fs' := by
  obtain ⟨parent, last, pperm, fperm, -, -, -, -, -, -, ht, rfl⟩ := WriteFile_ok_inv h
  apply set_keepsDirs
  intro p hp
  rcases ht with ⟨old, ho, -⟩ | ⟨hn, -⟩
  · rw [ho] at hp; cases hp
  · rw [hn] at hp; cases hp

/-- After a successful `WriteFile` the path names a file with the data written. -/
theorem WriteFile_ok_lookup {name data : String} {perm : Nat} {fs fs' : FS}
    (h : WriteFile name data perm fs = (.ok (), fs')) :
    ∃ key fperm, lookup fs' name = .ok (key, .file fperm data) := by
  have hk := WriteFile_keepsDirs h
  obtain ⟨parent, last, pperm, fperm, hne, hlast, hw, hp, hd, hts, -, rfl⟩ := WriteFile_ok_inv h
  refine ⟨parent ++ [last], fperm, ?_⟩
  have hw2 := walk_keepsDirs hk _ _ _ hw
  have hp2 := hk.2 _ _ hp
  have hwl := walk_last hlast hw2 hp2 hd
  unfold lookup
  rw [if_neg hne, hwl]
  simp [FS.set, hts]

theorem WriteFile_ok_contentAt {name data : String} {perm : Nat} {fs fs' : FS}
    (h : WriteFile name data perm fs = (.ok (), fs')) : contentAt fs' name = some data := by
  obtain ⟨key, fperm, hl⟩ := WriteFile_ok_lookup h
  simp [contentAt, hl]

/-- Writing the same data again changes nothing, when new files are created writable. -/
theorem WriteFile_again {name data : String} {perm : Nat} {fs fs' : FS}
    (hperm : ownerWritable perm = true)
    (h : WriteFile name data perm fs = (.ok (), fs')) :
    WriteFile name data perm fs' = (.ok (), fs') := by
  have hk := WriteFile_keepsDirs h
  obtain ⟨parent, last, pperm, fperm, hne, hlast, hw, hp, hd, hts, ht, rfl⟩ := WriteFile_ok_inv h
  have hw2 := walk_keepsDirs hk _ _ _ hw
  have hp2 := hk.2 _ _ hp
  have hfw : ownerWritable fperm = true := by
    rcases ht with ⟨_, _, hh⟩ | ⟨_, rfl⟩
    · exact hh
    · exact hperm
  have hd3 : ¬(last = "." ∨ last = ".." ∨ trailingSep name = true) := by
    rw [hts]; simpa using hd
  have hent : (fs.set (parent ++ [last]) (.file fperm data)).entries (parent ++ [last]) =
      some (.file fperm data) := by simp [FS.set]
  have hw3 : walk (fs.set (parent ++ [last]) (.file fperm data))
      (origin (fs.set (parent ++ [last]) (.file fperm data)) name) (elements name).dropLast =
        .ok parent := hw2
  generalize fs.set (parent ++ [last]) (.file fperm data) = fs2 at *
  unfold WriteFile
  rw [if_neg hne]
  simp only [hlast, hw3, hp2, if_neg hd3, hent, if_pos hfw, Prod.mk.injEq, true_and]
  cases fs2 with
  | mk ents cwd =>
    simp only [FS.set, FS.mk.injEq, and_true]
    funext k
    by_cases hkk : k = parent ++ [last]
    · simp only [hkk, if_true]; exact hent.symm
    · simp [hkk]

theorem Mkdir_onlyAddsDirs (name : String) (perm : Nat) (fs : FS) :
    OnlyAddsDirs fs (Mkdir name perm fs).2 := by
  unfold Mkdir
  repeat' split
  all_goals first
    | exact onlyAddsDirs_refl fs
    | (apply set_onlyAddsDirs; assumption)

theorem Mkdir_ok_lookup {name : String} {perm : Nat} {fs fs' : FS}
    (h : Mkdir name perm fs = (.ok (), fs')) :
    ∃ key, lookup fs' name = .ok (key, .dir perm) := by
  have hadds : OnlyAddsDirs fs fs' := by
    have := Mkdir_onlyAddsDirs name perm fs
    rwa [h] at this
  have hk := onlyAddsDirs_keepsDirs hadds
  unfold Mkdir at h
  by_cases hne : name = ""
  · simp [hne] at h
  rw [if_neg hne] at h
  cases hlast : (elements name).getLast? with
  | none => simp [hlast] at h
  | some last =>
    simp only [hlast] at h
    cases hw : walk fs (origin fs name) (elements name).dropLast with
    | error e => simp [hw] at h
    | ok parent =>
      simp only [hw] at h
      cases hp : fs.entries parent with
      | none => simp [hp] at h
      | some ent =>
        cases ent with
        | file p d => simp [hp] at h
        | dir pperm =>
          simp only [hp] at h
          by_cases hd : last = "." ∨ last = ".."
          · simp [if_pos hd] at h
          rw [if_neg hd] at h
          cases ht : fs.entries (parent ++ [last]) with
          | some ent => simp [ht] at h
          | none =>
            simp only [ht] at h
            by_cases hwr : ownerWritable pperm = true
            · rw [if_pos hwr] at h
              simp only [Prod.mk.injEq, true_and] at h
              have hw2 : walk fs' (origin fs' name) (elements name).dropLast = .ok parent := by
                rw [origin_of_cwd hk.1]
                exact walk_keepsDirs hk _ _ _ hw
              have hwl := walk_last hlast hw2 (hk.2 _ _ hp) hd
              refine ⟨parent ++ [last], ?_⟩
              unfold lookup
              rw [if_neg hne, hwl, ← h]
              simp [FS.set]
            · simp [if_neg hwr] at h

theorem lookup_keepsDirs {fs fs' : FS} (hk : KeepsDirs fs fs') {path : String}
    {key : List String} {p : Nat} (h : lookup fs path = .ok (key, .dir p)) :
    lookup fs' path = .ok (key, .dir p) := by
  unfold lookup at h ⊢
  by_cases hne : path = ""
  · simp [hne] at h
  rw [if_neg hne] at h ⊢
  cases hw : walk fs (origin fs path) (elements path) with
  | error e => simp [hw] at h
  | ok k =>
    simp only [hw] at h
    rw [origin_of_cwd hk.1, walk_keepsDirs hk _ _ _ hw]
    cases hent : fs.entries k with
    | none => simp [hent] at h
    | some ent =>
      cases ent with
      | file q d =>
        simp only [hent] at h
        (split_ifs at h; simp at h)
      | dir q =>
        simp only [hent, Except.ok.injEq, Prod.mk.injEq, Entry.dir.injEq] at h
        obtain ⟨rfl, rfl⟩ := h
        simp [hk.2 _ _ hent]

theorem MkdirAllFuel_onlyAddsDirs (n : Nat) : ∀ (path : String) (perm : Nat) (fs : FS)
    (r : Except String Unit) (fs' : FS),
    MkdirAllFuel n path perm fs = some (r, fs') → OnlyAddsDirs fs fs' := by
  induction n with
  | zero => intro path perm fs r fs' h; simp [MkdirAllFuel] at h
  | succ n ih =>
    intro path perm fs r fs' h
    rw [MkdirAllFuel] at h
    split at h
    · simp only [Option.some.injEq, Prod.mk.injEq] at h
      rw [← h.2]; exact onlyAddsDirs_refl fs
    · simp only [Option.some.injEq, Prod.mk.injEq] at h
      rw [← h.2]; exact onlyAddsDirs_refl fs
    · simp only at h
      split at h
      · cases h
      · rename_i err fs1 hrec
        simp only [Option.some.injEq, Prod.mk.injEq] at h
        rw [← h.2]
        split_ifs at hrec
        · exact ih _ _ _ _ _ hrec
        · simp at hrec
      · rename_i fs1 hrec
        have h1 : OnlyAddsDirs fs fs1 := by
          split_ifs at hrec
          · exact ih _ _ _ _ _ hrec
          · simp only [Option.some.injEq, Prod.mk.injEq, true_and] at hrec
            rw [← hrec]; exact onlyAddsDirs_refl fs
        have h2 := Mkdir_onlyAddsDirs path perm fs1
        split at h
        · rename_i fs2 hm
          rw [hm] at h2
          simp only [Option.some.injEq, Prod.mk.injEq] at h
          rw [← h.2]; exact onlyAddsDirs_trans h1 h2
        · rename_i err fs2 hm
          rw [hm] at h2
          split at h <;>
          · simp only [Option.some.injEq, Prod.mk.injEq] at h
            rw [← h.2]; exact onlyAddsDirs_trans h1 h2

theorem Stat_dir_lookup {path : String} {fs : FS} {p : Nat} (h : Stat path fs = .ok (.dir p)) :
    ∃ key, lookup fs path = .ok (key, .dir p) := by
  unfold Stat at h
  split at h
  · cases h
  · rename_i key entry hl
    simp only [Except.ok.injEq] at h
    subst h
    exact ⟨key, hl⟩

theorem lookup_dir_Stat {path : String} {fs : FS} {p : Nat} {key : List String}
    (h : lookup fs path = .ok (key, .dir p)) : Stat path fs = .ok (.dir p) := by
  simp [Stat, h]

theorem MkdirAllFuel_ok_lookup {n : Nat} {path : String} {perm : Nat} {fs fs' : FS}
    (h : MkdirAllFuel n path perm fs = some (.ok (), fs')) :
    ∃ key p, lookup fs' path = .ok (key, .dir p) := by
  cases n with
  | zero => simp [MkdirAllFuel] at h
  | succ n =>
    rw [MkdirAllFuel] at h
    split at h
    · rename_i p hs
      simp only [Option.some.injEq, Prod.mk.injEq, true_and] at h
      subst h
      obtain ⟨key, hl⟩ := Stat_dir_lookup hs
      exact ⟨key, p, hl⟩
    · simp at h
    · simp only at h
      split at h
      · cases h
      · simp at h
      · rename_i fs1 hrec
        split at h
        · rename_i fs2 hm
          simp only [Option.some.injEq, Prod.mk.injEq, true_and] at h
          subst h
          obtain ⟨key, hl⟩ := Mkdir_ok_lookup hm
          exact ⟨key, perm, hl⟩
        · rename_i err fs2 hm
          split at h
          · rename_i p hs
            simp only [Option.some.injEq, Prod.mk.injEq, true_and] at h
            subst h
            obtain ⟨key, hl⟩ := Stat_dir_lookup hs
            exact ⟨key, p, hl⟩
          · simp at h

theorem parentOf_length_lt (cs : List Char) (h : (beforeLastElement cs).length > 1) :
    (parentOf cs).length < cs.length := by
  have h1 : (cs.reverse.dropWhile (fun c => c == '/')).length ≤ cs.reverse.length :=
    (List.dropWhile_sublist (fun c => c == '/')).length_le
  have h2 : (beforeLastElement cs).length ≤ (cs.reverse.dropWhile (fun c => c == '/')).length :=
    (List.dropWhile_sublist (fun c => c != '/')).length_le
  rw [List.length_reverse] at h1
  unfold parentOf
  rw [List.length_reverse, List.length_drop]
  omega

/-- The bound on the recursion of `MkdirAll` is never reached. -/
theorem MkdirAllFuel_isSome (n : Nat) : ∀ (path : String) (perm : Nat) (fs : FS),
    path.length < n → (MkdirAllFuel n path perm fs).isSome = true := by
  induction n with
  | zero => intro path perm fs h; omega
  | succ n ih =>
    intro path perm fs h
    rw [MkdirAllFuel]
    split
    · rfl
    · rfl
    · simp only
      have hrec : (if (beforeLastElement path.data).length > 1 then
          MkdirAllFuel n ⟨parentOf path.data⟩ perm fs else some (.ok (), fs)).isSome = true := by
        split_ifs with hp
        · apply ih
          have := parentOf_length_lt path.data hp
          simp only [String.length] at h ⊢
          omega
        · rfl
      revert hrec
      generalize (if (beforeLastElement path.data).length > 1 then
          MkdirAllFuel n ⟨parentOf path.data⟩ perm fs else some (.ok (), fs)) = rec
      intro hrec
      match rec, hrec with
      | some (.error err, fs1), _ => rfl
      | some (.ok (), fs1), _ =>
        simp only
        split
        · rfl
        · split <;> rfl

theorem MkdirAll_eq_fuel (path : String) (perm : Nat) (fs : FS) :
    MkdirAllFuel (path.length + 1) path perm fs = some (MkdirAll path perm fs) := by
  have h := MkdirAllFuel_isSome (path.length + 1) path perm fs (Nat.lt_succ_self _)
  unfold MkdirAll
  cases hm : MkdirAllFuel (path.length + 1) path perm fs with
  | none => simp [hm] at h
  | some r => rfl

theorem MkdirAll_onlyAddsDirs (path : String) (perm : Nat) (fs : FS) :
    OnlyAddsDirs fs (MkdirAll path perm fs).2 :=
  MkdirAllFuel_onlyAddsDirs _ path perm fs _ _ (MkdirAll_eq_fuel path perm fs)

theorem MkdirAll_ok_lookup {path : String} {perm : Nat} {fs fs' : FS}
    (h : MkdirAll path perm fs = (.ok (), fs')) :
    ∃ key p, lookup fs' path = .ok (key, .dir p) :=
  MkdirAllFuel_ok_lookup ((MkdirAll_eq_fuel path perm fs).trans (by rw [h]))

/-- On an existing directory `MkdirAll` succeeds and changes nothing. -/
theorem MkdirAll_of_dir {path : String} {perm : Nat} {fs : FS} {key : List String} {p : Nat}
    (h : lookup fs path = .ok (key, .dir p)) : MkdirAll path perm fs = (.ok (), fs) := by
  unfold MkdirAll
  rw [MkdirAllFuel, lookup_dir_Stat h]

/-- From a path that names a directory, every leading part of its names leads to a directory. -/
theorem leadsToDir_of_walk (fs : FS) (names : List String) : ∀ (cur key : List String) (p : Nat),
    walk fs cur names = .ok key → fs.entries key = some (.dir p) →
    ∀ n, leadsToDir fs cur (names.take n) = true := by
  induction names with
  | nil =>
    intro cur key p hw hk n
    simp only [walk, Except.ok.injEq] at hw
    subst hw
    simp [leadsToDir, walk, hk]
  | cons x xs ih =>
    intro cur key p hw hk n
    simp only [walk] at hw
    cases hcur : fs.entries cur with
    | none => simp [hcur] at hw
    | some e =>
      cases e with
      | file q d => simp [hcur] at hw
      | dir q =>
        simp only [hcur] at hw
        cases n with
        | zero => simp [leadsToDir, walk, hcur]
        | succ n =>
          simp only [List.take_succ_cons, leadsToDir, walk, hcur]
          split_ifs at hw ⊢ with h1 h2
          · exact ih _ _ _ hw hk n
          · exact ih _ _ _ hw hk n
          · exact ih _ _ _ hw hk n

theorem leadsToDir_of_lookup {fs : FS} {path : String} {key : List String} {p : Nat}
    (h : lookup fs path = .ok (key, .dir p)) (n : Nat) :
    leadsToDir fs (origin fs path) ((elements path).take n) = true := by
  unfold lookup at h
  by_cases hne : path = ""
  · simp [hne] at h
  rw [if_neg hne] at h
  cases hw : walk fs (origin fs path) (elements path) with
  | error e => simp [hw] at h
  | ok k =>
    simp only [hw] at h
    cases hent : fs.entries k with
    | none => simp [hent] at h
    | some ent =>
      cases ent with
      | file q d =>
        simp only [hent] at h
        (split_ifs at h; simp at h)
      | dir q => exact leadsToDir_of_walk fs _ _ _ q hw hent n

theorem isDirAt_of_lookup {fs : FS} {path : String} {key : List String} {p : Nat}
    (h : lookup fs path = .ok (key, .dir p)) : isDirAt fs path = true := by
  simp [isDirAt, h]

theorem credentialsContent_eq (c : Credentials) :
    credentialsContent c =
      "[default]\naws_access_key_id = " ++ aws.ToString c.AccessKeyId ++
        "\naws_secret_access_key = " ++ aws.ToString c.SecretAccessKey ++
        "\naws_session_token = " ++ aws.ToString c.SessionToken ++ "\n" := by
  apply String.ext
  simp [credentialsContent, credentialsTemplate, fmt.Sprintf, fmt.formatChars]

theorem Errorf_tokenSource (err : String) :
    fmt.Errorf "error creating token source: %v" [err] = "error creating token source: " ++ err := by
  apply String.ext
  simp [fmt.Errorf, fmt.Sprintf, fmt.formatChars]

theorem Errorf_token (err : String) :
    fmt.Errorf "error retrieving token: %v" [err] = "error retrieving token: " ++ err := by
  apply String.ext
  simp [fmt.Errorf, fmt.Sprintf, fmt.formatChars]

theorem Errorf_config (err : String) :
    fmt.Errorf "error loading config: %v " [err] = "error loading config: " ++ err ++ " " := by
  apply String.ext
  simp [fmt.Errorf, fmt.Sprintf, fmt.formatChars]

theorem Errorf_role (err : String) :
    fmt.Errorf "error assuming role: %v " [err] = "error assuming role: " ++ err ++ " " := by
  apply String.ext
  simp [fmt.Errorf, fmt.Sprintf, fmt.formatChars]

theorem Errorf_directory (dir err : String) :
    fmt.Errorf "error creating directory %s: %v" [dir, err] =
      "error creating directory " ++ dir ++ ": " ++ err := by
  apply String.ext
  simp [fmt.Errorf, fmt.Sprintf, fmt.formatChars]

theorem Errorf_file (err : String) :
    fmt.Errorf "error writing file: %v " [err] = "error writing file: " ++ err ++ " " := by
  apply String.ext
  simp [fmt.Errorf, fmt.Sprintf, fmt.formatChars]

theorem Sprintf_fatal_token (err : String) :
    fmt.Sprintf "failed to generate Google ID token: %v" [err] =
      "failed to generate Google ID token: " ++ err := by
  apply String.ext
  simp [fmt.Sprintf, fmt.formatChars]

theorem Sprintf_fatal_role (err : String) :
    fmt.Sprintf "failed to assume AWS role: %v" [err] = "failed to assume AWS role: " ++ err := by
  apply String.ext
  simp [fmt.Sprintf, fmt.formatChars]

theorem Sprintf_fatal_write (path err : String) :
    fmt.Sprintf "failed to write AWS credentials to %s: %v" [path, err] =
      "failed to write AWS credentials to " ++ path ++ ": " ++ err := by
  apply String.ext
  simp [fmt.Sprintf, fmt.formatChars]

/-- The calls and the result of `writeAWSCredentials` on non-nil credentials, by the
results of its two file-system calls. -/
theorem writeAWSCredentials_some (c : Credentials) (path : String) (w : World) :
    writeAWSCredentials (some c) path w =
      match os.MkdirAll (filepath.Dir path) 0o755 w.fs with
      | (.error err, fs1) =>
        (.returned (some ("error creating directory " ++ filepath.Dir path ++ ": " ++ err)),
          ⟨fs1, w.trace ++ [.MkdirAll (filepath.Dir path) 0o755]⟩)
      | (.ok (), fs1) =>
        match os.WriteFile path (credentialsContent c) 0o644 fs1 with
        | (.error err, fs2) =>
          (.returned (some ("error writing file: " ++ err ++ " ")),
            ⟨fs2, w.trace ++ [.MkdirAll (filepath.Dir path) 0o755,
              .WriteFile path (credentialsContent c) 0o644]⟩)
        | (.ok (), fs2) =>
          (.returned none,
            ⟨fs2, w.trace ++ [.MkdirAll (filepath.Dir path) 0o755,
              .WriteFile path (credentialsContent c) 0o644]⟩) := by
  simp only [writeAWSCredentials, World.emit]
  rcases os.MkdirAll (filepath.Dir path) 0o755 w.fs with ⟨r, fs1⟩
  cases r with
  | error err => simp [Errorf_directory]
  | ok u =>
    simp only
    rcases os.WriteFile path (credentialsContent c) 0o644 fs1 with ⟨r2, fs2⟩
    cases r2 with
    | error err => simp [Errorf_file]
    | ok u2 => simp

theorem writeAWSCredentials_ok_inv {c : Credentials} {path : String} {w w1 : World}
    (h : writeAWSCredentials (some c) path w = (.returned none, w1)) :
    ∃ fs1, os.MkdirAll (filepath.Dir path) 0o755 w.fs = (.ok (), fs1) ∧
      os.WriteFile path (credentialsContent c) 0o644 fs1 = (.ok (), w1.fs) ∧
      w1.trace = w.trace ++ [.MkdirAll (filepath.Dir path) 0o755,
        .WriteFile path (credentialsContent c) 0o644] := by
  rw [writeAWSCredentials_some] at h
  rcases hm : os.MkdirAll (filepath.Dir path) 0o755 w.fs with ⟨r, fs1⟩
  rw [hm] at h
  cases r with
  | error err => simp at h
  | ok u =>
    simp only at h
    rcases hw : os.WriteFile path (credentialsContent c) 0o644 fs1 with ⟨r2, fs2⟩
    rw [hw] at h
    cases r2 with
    | error err => simp at h
    | ok u2 =>
      simp only [Prod.mk.injEq, true_and] at h
      subst h
      exact ⟨fs1, rfl, hw, rfl⟩

theorem generateGoogleIDToken_frame (env : Env) (audience : String) (w : World) :
    (generateGoogleIDToken env audience w).2.fs = w.fs ∧
      ∃ evs, (generateGoogleIDToken env audience w).2.trace = w.trace ++ evs ∧
        ∀ ev ∈ evs, ev.isExchange = false ∧ ev.isFileSystem = false := by
  simp only [generateGoogleIDToken, World.emit]
  split
  · exact ⟨rfl, [.NewTokenSource audience], rfl, by simp [Event.isExchange, Event.isFileSystem]⟩
  · split
    · exact ⟨rfl, [.NewTokenSource audience, .Token], by simp,
        by simp [Event.isExchange, Event.isFileSystem]⟩
    · exact ⟨rfl, [.NewTokenSource audience, .Token], by simp,
        by simp [Event.isExchange, Event.isFileSystem]⟩

theorem assumeAWSRole_frame (env : Env) (arn sessionName idToken : String) (w : World) :
    (assumeAWSRole env arn sessionName idToken w).2.fs = w.fs ∧
      ∃ evs, (assumeAWSRole env arn sessionName idToken w).2.trace = w.trace ++ evs ∧
        ∀ ev ∈ evs, ev.isFileSystem = false := by
  simp only [assumeAWSRole, World.emit]
  split
  · exact ⟨rfl, [.LoadDefaultConfig [LoadOption.WithCredentialsProvider .AnonymousCredentials]],
      rfl, by simp [Event.isFileSystem]⟩
  · split
    · exact ⟨rfl, [.LoadDefaultConfig [LoadOption.WithCredentialsProvider .AnonymousCredentials],
        .AssumeRoleWithWebIdentity ⟨some arn, some sessionName, some idToken⟩],
        by simp, by simp [Event.isFileSystem]⟩
    · exact ⟨rfl, [.LoadDefaultConfig [LoadOption.WithCredentialsProvider .AnonymousCredentials],
        .AssumeRoleWithWebIdentity ⟨some arn, some sessionName, some idToken⟩],
        by simp, by simp [Event.isFileSystem]⟩

/-- The first two stages do not read the world: their results are the same in every world. -/
theorem generateGoogleIDToken_result (env : Env) (audience : String) (w w' : World) :
    (generateGoogleIDToken env audience w).1 = (generateGoogleIDToken env audience w').1 := by
  simp only [generateGoogleIDToken]
  split
  · rfl
  · split <;> rfl

theorem assumeAWSRole_result (env : Env) (arn sessionName idToken : String) (w w' : World) :
    (assumeAWSRole env arn sessionName idToken w).1 =
      (assumeAWSRole env arn sessionName idToken w').1 := by
  simp only [assumeAWSRole]
  split
  · rfl
  · split <;> rfl

theorem main_of_token_error {env : Env} {roleArn outputPath : String} {w w1 : World} {err : String}
    (h : generateGoogleIDToken env "gcp" w = (.error err, w1)) :
    main env roleArn outputPath w =
      (1, w1.emit (.Log ("failed to generate Google ID token: " ++ err))) := by
  simp only [main, h, logFatalf, Sprintf_fatal_token]

theorem main_of_role_error {env : Env} {roleArn outputPath : String} {w w1 w2 : World}
    {idToken err : String}
    (hgen : generateGoogleIDToken env "gcp" w = (.ok idToken, w1))
    (h : assumeAWSRole env roleArn "dataflow" idToken w1 = (.error err, w2)) :
    main env roleArn outputPath w =
      (1, w2.emit (.Log ("failed to assume AWS role: " ++ err))) := by
  simp only [main, hgen, h, logFatalf, Sprintf_fatal_role]

theorem main_of_write_error {env : Env} {roleArn outputPath : String} {w w1 w2 w3 : World}
    {idToken err : String} {creds : Option Credentials}
    (hgen : generateGoogleIDToken env "gcp" w = (.ok idToken, w1))
    (hrole : assumeAWSRole env roleArn "dataflow" idToken w1 = (.ok creds, w2))
    (h : writeAWSCredentials creds outputPath w2 = (.returned (some err), w3)) :
    main env roleArn outputPath w =
      (1, w3.emit (.Log ("failed to write AWS credentials to " ++ outputPath ++ ": " ++ err))) := by
  simp only [main, hgen, hrole, h, logFatalf, Sprintf_fatal_write]

/-! ## The rendered content (C1, C10) -/

theorem newEvents_of_append {w w2 : World} (evs : List Event) (h : w2.trace = w.trace ++ evs) :
    World.newEvents w w2 = evs := by
  simp [World.newEvents, h]

/-- C1: for every triple (a, s, t), the content `writeAWSCredentials` renders is exactly
`[default]`, the three key lines in order and one trailing line feed; it is the data of
every `WriteFile` call the function makes, and after a successful return it is the data
of the file at the destination. -/
theorem writeAWSCredentials_writes_exact_content (a s t : String) (exp : Option Nat)
    (path : String) (w : World) :
    credentialsContent ⟨some a, some s, some t, exp⟩ =
        "[default]\naws_access_key_id = " ++ a ++ "\naws_secret_access_key = " ++ s ++
          "\naws_session_token = " ++ t ++ "\n" ∧
      (∀ ev ∈ World.newEvents w (writeAWSCredentials (some ⟨some a, some s, some t, exp⟩) path w).2,
        ev.isWriteFile = true →
          ev = .WriteFile path ("[default]\naws_access_key_id = " ++ a ++
            "\naws_secret_access_key = " ++ s ++ "\naws_session_token = " ++ t ++ "\n") 0o644) ∧
      ((writeAWSCredentials (some ⟨some a, some s, some t, exp⟩) path w).1 = .returned none →
        os.contentAt (writeAWSCredentials (some ⟨some a, some s, some t, exp⟩) path w).2.fs path =
          some ("[default]\naws_access_key_id = " ++ a ++ "\naws_secret_access_key = " ++ s ++
            "\naws_session_token = " ++ t ++ "\n")) := by
  have hc : credentialsContent ⟨some a, some s, some t, exp⟩ =
      "[default]\naws_access_key_id = " ++ a ++ "\naws_secret_access_key = " ++ s ++
        "\naws_session_token = " ++ t ++ "\n" := by
    rw [credentialsContent_eq]; rfl
  refine ⟨hc, ?_, ?_⟩
  · rw [← hc, writeAWSCredentials_some]
    rcases os.MkdirAll (filepath.Dir path) 0o755 w.fs with ⟨r, fs1⟩
    cases r with
    | error err =>
      intro ev hev hw
      rw [newEvents_of_append ([.MkdirAll (filepath.Dir path) 0o755]) rfl] at hev
      simp only [List.mem_singleton] at hev
      subst hev
      simp [Event.isWriteFile] at hw
    | ok u =>
      simp only
      rcases os.WriteFile path (credentialsContent ⟨some a, some s, some t, exp⟩) 0o644 fs1
        with ⟨r2, fs2⟩
      cases r2 with
      | error err =>
        intro ev hev hw
        rw [newEvents_of_append ([.MkdirAll (filepath.Dir path) 0o755,
          .WriteFile path (credentialsContent ⟨some a, some s, some t, exp⟩) 0o644]) rfl] at hev
        simp only [List.mem_cons, List.mem_singleton, List.not_mem_nil, or_false] at hev
        rcases hev with rfl | rfl
        · simp [Event.isWriteFile] at hw
        · rfl
      | ok u2 =>
        intro ev hev hw
        rw [newEvents_of_append ([.MkdirAll (filepath.Dir path) 0o755,
          .WriteFile path (credentialsContent ⟨some a, some s, some t, exp⟩) 0o644]) rfl] at hev
        simp only [List.mem_cons, List.mem_singleton, List.not_mem_nil, or_false] at hev
        rcases hev with rfl | rfl
        · simp [Event.isWriteFile] at hw
        · rfl
  · intro hok
    rw [← hc]
    obtain ⟨fs1, -, hwf, -⟩ := @writeAWSCredentials_ok_inv _ _ _
      (writeAWSCredentials (some ⟨some a, some s, some t, exp⟩) path w).2 (Prod.ext hok rfl)
    exact WriteFile_ok_contentAt hwf

/-- Witness of C1: the scenario of the spec, on a file system that holds only a
writable root. -/
theorem writeAWSCredentials_writes_exact_content_witness :
    (writeAWSCredentials (some exampleCredentials) "/tmp/out/credentials"
        ⟨rootOnly 0o755, []⟩).1 = .returned none ∧
      os.contentAt (writeAWSCredentials (some exampleCredentials) "/tmp/out/credentials"
        ⟨rootOnly 0o755, []⟩).2.fs "/tmp/out/credentials" =
        some ("[default]\naws_access_key_id = AKIA_EXAMPLE\naws_secret_access_key = secret123\n" ++
          "aws_session_token = sessiontokenXYZ\n") :=
  ⟨by decide,
    (writeAWSCredentials_writes_exact_content "AKIA_EXAMPLE" "secret123" "sessiontokenXYZ" none
      "/tmp/out/credentials" ⟨rootOnly 0o755, []⟩).2.2 (by decide)⟩

/-- C10: on non-nil credentials `writeAWSCredentials` never panics; a nil field is
rendered as the empty string, and the call behaves exactly as on credentials whose
fields point to those strings, whatever the expiry of either. -/
theorem writeAWSCredentials_nil_fields_render_empty (c : Credentials) (exp : Option Nat)
    (path : String) (w : World) :
    (∀ msg, (writeAWSCredentials (some c) path w).1 ≠ .panicked msg) ∧
      credentialsContent c =
        "[default]\naws_access_key_id = " ++ c.AccessKeyId.getD "" ++
          "\naws_secret_access_key = " ++ c.SecretAccessKey.getD "" ++
          "\naws_session_token = " ++ c.SessionToken.getD "" ++ "\n" ∧
      credentialsContent ⟨none, none, none, exp⟩ =
        "[default]\naws_access_key_id = \naws_secret_access_key = \naws_session_token = \n" ∧
      writeAWSCredentials (some c) path w =
        writeAWSCredentials
          (some ⟨some (c.AccessKeyId.getD ""), some (c.SecretAccessKey.getD ""),
            some (c.SessionToken.getD ""), exp⟩) path w := by
  have hget : ∀ p : Option String, aws.ToString p = p.getD "" := by
    intro p; cases p <;> rfl
  have hcontent : credentialsContent c =
      credentialsContent ⟨some (c.AccessKeyId.getD ""), some (c.SecretAccessKey.getD ""),
        some (c.SessionToken.getD ""), exp⟩ := by
    simp only [credentialsContent, hget, Option.getD_some]
  refine ⟨?_, ?_, ?_, ?_⟩
  · intro msg
    rw [writeAWSCredentials_some]
    rcases os.MkdirAll (filepath.Dir path) 0o755 w.fs with ⟨r, fs1⟩
    cases r with
    | error err => simp
    | ok u =>
      simp only
      rcases os.WriteFile path (credentialsContent c) 0o644 fs1 with ⟨r2, fs2⟩
      cases r2 <;> simp
  · rw [credentialsContent_eq]
    simp only [hget]
  · rw [credentialsContent_eq]; rfl
  · rw [writeAWSCredentials_some, writeAWSCredentials_some, ← hcontent]

/-! ## Failure of the first two stages (C3, C4) -/

/-- What `main` leaves when the identity-token stage failed. -/
theorem main_frame_of_token_error {env : Env} (roleArn outputPath : String) {w w1 : World}
    {err : String} (h : generateGoogleIDToken env "gcp" w = (.error err, w1)) :
    (main env roleArn outputPath w).2.fs = w.fs ∧
      ∀ ev ∈ World.newEvents w (main env roleArn outputPath w).2,
        ev.isExchange = false ∧ ev.isFileSystem = false := by
  obtain ⟨hfs, evs, htr, hev⟩ := generateGoogleIDToken_frame env "gcp" w
  rw [h] at hfs htr
  simp only at hfs htr
  rw [main_of_token_error h]
  refine ⟨hfs, ?_⟩
  have : (w1.emit (.Log ("failed to generate Google ID token: " ++ err))).trace =
      w.trace ++ (evs ++ [.Log ("failed to generate Google ID token: " ++ err)]) := by
    simp [World.emit, htr]
  rw [newEvents_of_append _ this]
  intro ev hmem
  rcases List.mem_append.1 hmem with hm | hm
  · exact hev ev hm
  · simp only [List.mem_singleton] at hm
    subst hm
    exact ⟨rfl, rfl⟩

/-- What `main` leaves when the exchange stage failed. -/
theorem main_frame_of_role_error {env : Env} {roleArn : String} (outputPath : String)
    {w w1 w2 : World}
    {idToken err : String}
    (hgen : generateGoogleIDToken env "gcp" w = (.ok idToken, w1))
    (h : assumeAWSRole env roleArn "dataflow" idToken w1 = (.error err, w2)) :
    (main env roleArn outputPath w).2.fs = w.fs ∧
      ∀ ev ∈ World.newEvents w (main env roleArn outputPath w).2, ev.isFileSystem = false := by
  obtain ⟨hfs, evs, htr, hev⟩ := generateGoogleIDToken_frame env "gcp" w
  rw [hgen] at hfs htr
  simp only at hfs htr
  obtain ⟨hfs2, evs2, htr2, hev2⟩ := assumeAWSRole_frame env roleArn "dataflow" idToken w1
  rw [h] at hfs2 htr2
  simp only at hfs2 htr2
  rw [main_of_role_error hgen h]
  refine ⟨hfs2.trans hfs, ?_⟩
  have : (w2.emit (.Log ("failed to assume AWS role: " ++ err))).trace =
      w.trace ++ (evs ++ (evs2 ++ [.Log ("failed to assume AWS role: " ++ err)])) := by
    simp only [World.emit] at htr htr2 ⊢
    simp [htr2, htr]
  rw [newEvents_of_append _ this]
  intro ev hmem
  rcases List.mem_append.1 hmem with hm | hm
  · exact (hev ev hm).2
  · rcases List.mem_append.1 hm with hm2 | hm2
    · exact hev2 ev hm2
    · simp only [List.mem_singleton] at hm2
      subst hm2
      rfl

/-- C3: if `generateGoogleIDToken` fails, `main` exits with status 1 after logging the
failure, makes no call to the trust domain (neither client configuration nor exchange),
makes no file-system call, and leaves the file system as it was. -/
theorem main_token_failure_touches_nothing (env : Env) (roleArn outputPath : String)
    (w w1 : World) (err : String)
    (h : generateGoogleIDToken env "gcp" w = (.error err, w1)) :
    main env roleArn outputPath w =
        (1, w1.emit (.Log ("failed to generate Google ID token: " ++ err))) ∧
      (main env roleArn outputPath w).2.fs = w.fs ∧
      (∀ path, os.contentAt (main env roleArn outputPath w).2.fs path = os.contentAt w.fs path) ∧
      ∀ ev ∈ World.newEvents w (main env roleArn outputPath w).2,
        ev.isExchange = false ∧ ev.isFileSystem = false := by
  have hf := main_frame_of_token_error roleArn outputPath h
  exact ⟨main_of_token_error h, hf.1, fun path => by rw [hf.1], hf.2⟩

/-- Witness of C3: no token source can be created, and a credentials file of an
earlier run is in place. -/
theorem main_token_failure_touches_nothing_witness :
    generateGoogleIDToken (identityUnavailable "no ambient identity") "gcp"
        ⟨(rootOnly 0o755).set ["creds"] (.file 0o644 "old"), []⟩ =
      (.error "error creating token source: no ambient identity",
        ⟨(rootOnly 0o755).set ["creds"] (.file 0o644 "old"), [.NewTokenSource "gcp"]⟩) ∧
    os.contentAt (main (identityUnavailable "no ambient identity")
        "arn:aws:iam::123456789012:role/example" "/creds"
        ⟨(rootOnly 0o755).set ["creds"] (.file 0o644 "old"), []⟩).2.fs "/creds" = some "old" :=
  ⟨rfl, ((main_token_failure_touches_nothing (identityUnavailable "no ambient identity")
      "arn:aws:iam::123456789012:role/example" "/creds"
      ⟨(rootOnly 0o755).set ["creds"] (.file 0o644 "old"), []⟩ _ _ rfl).2.2.1 "/creds").trans
      (by decide)⟩

/-- C4: if `assumeAWSRole` fails, `main` logs the failure and exits with status 1 in
the world the failed stage left, makes no file-system call (`writeAWSCredentials` is
not run) and leaves the file system as it was; and a run of `main` that changes the file system or makes a
file-system call is one where both earlier stages succeeded. -/
theorem main_writes_only_after_both_stages (env : Env) (roleArn outputPath : String)
    (w : World) :
    (∀ idToken w1 err w2, generateGoogleIDToken env "gcp" w = (.ok idToken, w1) →
        assumeAWSRole env roleArn "dataflow" idToken w1 = (.error err, w2) →
        main env roleArn outputPath w =
            (1, w2.emit (.Log ("failed to assume AWS role: " ++ err))) ∧
          (main env roleArn outputPath w).2.fs = w.fs ∧
          ∀ ev ∈ World.newEvents w (main env roleArn outputPath w).2, ev.isFileSystem = false) ∧
      (((main env roleArn outputPath w).2.fs ≠ w.fs ∨
          ∃ ev ∈ World.newEvents w (main env roleArn outputPath w).2, ev.isFileSystem = true) →
        ∃ idToken w1 creds w2, generateGoogleIDToken env "gcp" w = (.ok idToken, w1) ∧
          assumeAWSRole env roleArn "dataflow" idToken w1 = (.ok creds, w2)) := by
  constructor
  · intro idToken w1 err w2 hgen hrole
    have hf := main_frame_of_role_error outputPath hgen hrole
    exact ⟨main_of_role_error hgen hrole, hf.1, hf.2⟩
  · intro hch
    rcases hgen : generateGoogleIDToken env "gcp" w with ⟨r, w1⟩
    cases r with
    | error err =>
      exfalso
      have hf := main_frame_of_token_error roleArn outputPath hgen
      rcases hch with hne | ⟨ev, hev, hfsys⟩
      · exact hne hf.1
      · rw [(hf.2 ev hev).2] at hfsys; cases hfsys
    | ok idToken =>
      rcases hrole : assumeAWSRole env roleArn "dataflow" idToken w1 with ⟨r2, w2⟩
      cases r2 with
      | error err =>
        exfalso
        have hf := main_frame_of_role_error outputPath hgen hrole
        rcases hch with hne | ⟨ev, hev, hfsys⟩
        · exact hne hf.1
        · rw [hf.2 ev hev] at hfsys; cases hfsys
      | ok creds => exact ⟨idToken, w1, creds, w2, rfl, hrole⟩

/-- Witness of C4: the exchange service rejects the request, and a credentials file of
an earlier run is in place. -/
theorem main_writes_only_after_both_stages_witness :
    (main (exchangeRejects "tok" "AccessDenied") "arn:aws:iam::123456789012:role/example"
        "/creds" ⟨(rootOnly 0o755).set ["creds"] (.file 0o644 "old"), []⟩).1 = 1 ∧
      os.contentAt (main (exchangeRejects "tok" "AccessDenied")
        "arn:aws:iam::123456789012:role/example" "/creds"
        ⟨(rootOnly 0o755).set ["creds"] (.file 0o644 "old"), []⟩).2.fs "/creds" = some "old" :=
  have h := (main_writes_only_after_both_stages (exchangeRejects "tok" "AccessDenied")
    "arn:aws:iam::123456789012:role/example" "/creds"
    ⟨(rootOnly 0o755).set ["creds"] (.file 0o644 "old"), []⟩).1 "tok" _ _ _ rfl rfl
  ⟨congrArg Prod.fst h.1, by rw [h.2.1]; decide⟩

/-! ## Directories and overwriting (C6, C7, C5) -/

/-- C6: if the parent directory of the destination cannot be created (`os.MkdirAll`
returns an error), `writeAWSCredentials` returns the directory-creation error, which
names the directory and the cause; its only call is that `MkdirAll` (no `WriteFile` is
attempted); and every file the file system then holds was there before, unchanged: the
call created no file, at the destination or elsewhere. -/
theorem writeAWSCredentials_directory_failure (c : Credentials) (path : String) (w : World)
    (err : String) (fs1 : os.FS)
    (h : os.MkdirAll (filepath.Dir path) 0o755 w.fs = (.error err, fs1)) :
    writeAWSCredentials (some c) path w =
        (.returned (some ("error creating directory " ++ filepath.Dir path ++ ": " ++ err)),
          ⟨fs1, w.trace ++ [.MkdirAll (filepath.Dir path) 0o755]⟩) ∧
      (∀ ev ∈ World.newEvents w (writeAWSCredentials (some c) path w).2,
        ev.isWriteFile = false) ∧
      (∀ k p d, (writeAWSCredentials (some c) path w).2.fs.entries k = some (.file p d) →
        w.fs.entries k = some (.file p d)) := by
  have hw : writeAWSCredentials (some c) path w =
      (.returned (some ("error creating directory " ++ filepath.Dir path ++ ": " ++ err)),
        ⟨fs1, w.trace ++ [.MkdirAll (filepath.Dir path) 0o755]⟩) := by
    rw [writeAWSCredentials_some, h]
  refine ⟨hw, ?_, ?_⟩
  · rw [hw, newEvents_of_append ([.MkdirAll (filepath.Dir path) 0o755]) rfl]
    intro ev hev
    simp only [List.mem_singleton] at hev
    subst hev
    rfl
  · rw [hw]
    intro k p d hk
    have hadd := MkdirAll_onlyAddsDirs (filepath.Dir path) 0o755 w.fs
    rw [h] at hadd
    rcases hadd.2 k with e | ⟨_, q, hq⟩
    · exact e ▸ hk
    · simp only at hk hq
      rw [hq] at hk
      cases hk

/-- Witness of C6: destination `/readonly/creds` under a root that is not writable. -/
theorem writeAWSCredentials_directory_failure_witness :
    os.MkdirAll (filepath.Dir "/readonly/creds") 0o755 (rootOnly 0o555) =
        (.error "mkdir /readonly: permission denied", rootOnly 0o555) ∧
      (writeAWSCredentials (some exampleCredentials) "/readonly/creds" ⟨rootOnly 0o555, []⟩).1 =
        .returned (some
          "error creating directory /readonly: mkdir /readonly: permission denied") ∧
      os.contentAt (writeAWSCredentials (some exampleCredentials) "/readonly/creds"
        ⟨rootOnly 0o555, []⟩).2.fs "/readonly/creds" = none :=
  ⟨rfl,
    congrArg Prod.fst (writeAWSCredentials_directory_failure exampleCredentials "/readonly/creds"
      ⟨rootOnly 0o555, []⟩ "mkdir /readonly: permission denied" (rootOnly 0o555) rfl).1,
    by decide⟩

/-- C7: a successful `writeAWSCredentials` first runs `os.MkdirAll` on
`filepath.Dir(path)`, after which every leading part of the directory's chain of names
leads to a directory, and only then `os.WriteFile` on the path; when it returns, the
chain is still in place, the directory exists, and the file at the path holds the
rendered content. -/
theorem writeAWSCredentials_creates_parents_then_writes (c : Credentials) (path : String)
    (w w1 : World) (h : writeAWSCredentials (some c) path w = (.returned none, w1)) :
    ∃ fs1, os.MkdirAll (filepath.Dir path) 0o755 w.fs = (.ok (), fs1) ∧
      (∀ n, os.leadsToDir fs1 (os.origin fs1 (filepath.Dir path))
        ((os.elements (filepath.Dir path)).take n) = true) ∧
      os.WriteFile path (credentialsContent c) 0o644 fs1 = (.ok (), w1.fs) ∧
      w1.trace = w.trace ++ [.MkdirAll (filepath.Dir path) 0o755,
        .WriteFile path (credentialsContent c) 0o644] ∧
      (∀ n, os.leadsToDir w1.fs (os.origin w1.fs (filepath.Dir path))
        ((os.elements (filepath.Dir path)).take n) = true) ∧
      os.isDirAt w1.fs (filepath.Dir path) = true ∧
      os.contentAt w1.fs path = some (credentialsContent c) := by
  obtain ⟨fs1, hmk, hwf, htr⟩ := writeAWSCredentials_ok_inv h
  obtain ⟨key, p, hl⟩ := MkdirAll_ok_lookup hmk
  have hl2 := lookup_keepsDirs (WriteFile_keepsDirs hwf) hl
  exact ⟨fs1, hmk, leadsToDir_of_lookup hl, hwf, htr, leadsToDir_of_lookup hl2,
    isDirAt_of_lookup hl2, WriteFile_ok_contentAt hwf⟩

/-- Witness of C7: destination `/tmp/out/credentials` where neither `/tmp` nor
`/tmp/out` exists; afterwards both are directories and the file holds the content. -/
theorem writeAWSCredentials_creates_parents_then_writes_witness :
    os.isDirAt (rootOnly 0o755) "/tmp" = false ∧
      os.isDirAt (writeAWSCredentials (some exampleCredentials) "/tmp/out/credentials"
        ⟨rootOnly 0o755, []⟩).2.fs "/tmp" = true ∧
      os.isDirAt (writeAWSCredentials (some exampleCredentials) "/tmp/out/credentials"
        ⟨rootOnly 0o755, []⟩).2.fs (filepath.Dir "/tmp/out/credentials") = true ∧
      os.contentAt (writeAWSCredentials (some exampleCredentials) "/tmp/out/credentials"
        ⟨rootOnly 0o755, []⟩).2.fs "/tmp/out/credentials" =
        some (credentialsContent exampleCredentials) :=
  have h := writeAWSCredentials_creates_parents_then_writes exampleCredentials
    "/tmp/out/credentials" ⟨rootOnly 0o755, []⟩
    (writeAWSCredentials (some exampleCredentials) "/tmp/out/credentials" ⟨rootOnly 0o755, []⟩).2
    (Prod.ext (by decide) rfl)
  ⟨by decide, by decide, h.choose_spec.2.2.2.2.2.1, h.choose_spec.2.2.2.2.2.2⟩

/-- Running `writeAWSCredentials` again on the world a successful run left succeeds and
leaves the file system as it is. -/
theorem writeAWSCredentials_again {c : Credentials} {path : String} {w w1 : World}
    (h : writeAWSCredentials (some c) path w = (.returned none, w1)) (tr : List Event) :
    writeAWSCredentials (some c) path ⟨w1.fs, tr⟩ =
      (.returned none, ⟨w1.fs, tr ++ [.MkdirAll (filepath.Dir path) 0o755,
        .WriteFile path (credentialsContent c) 0o644]⟩) := by
  obtain ⟨fs1, hmk, hwf, -⟩ := writeAWSCredentials_ok_inv h
  obtain ⟨key, p, hl⟩ := MkdirAll_ok_lookup hmk
  have hl2 := lookup_keepsDirs (WriteFile_keepsDirs hwf) hl
  rw [writeAWSCredentials_some]
  simp only
  rw [MkdirAll_of_dir hl2]
  simp only
  rw [WriteFile_again (by decide) hwf]

/-- C5: after a successful `writeAWSCredentials` the file at the destination holds
exactly the rendered content of the credentials, whatever the file system held before
(any other successful run with the same credentials and path ends with the same
content); and doing it again changes nothing: a second `writeAWSCredentials`, and a
second run of `main` after a successful one, succeed and leave the file system as the
first left it. -/
theorem writeAWSCredentials_overwrites (c : Credentials) (path : String) (w w1 : World)
    (h : writeAWSCredentials (some c) path w = (.returned none, w1)) :
    os.contentAt w1.fs path = some (credentialsContent c) ∧
      (∀ v v1, writeAWSCredentials (some c) path v = (.returned none, v1) →
        os.contentAt v1.fs path = os.contentAt w1.fs path) ∧
      (∀ tr, writeAWSCredentials (some c) path ⟨w1.fs, tr⟩ =
        (.returned none, ⟨w1.fs, tr ++ [.MkdirAll (filepath.Dir path) 0o755,
          .WriteFile path (credentialsContent c) 0o644]⟩)) ∧
      (∀ env roleArn w0 w3, main env roleArn path w0 = (0, w3) →
        ∀ tr, (main env roleArn path ⟨w3.fs, tr⟩).1 = 0 ∧
          (main env roleArn path ⟨w3.fs, tr⟩).2.fs = w3.fs) := by
  have hcontent : ∀ v v1, writeAWSCredentials (some c) path v = (.returned none, v1) →
      os.contentAt v1.fs path = some (credentialsContent c) := by
    intro v v1 hv
    obtain ⟨fs1, -, hwf, -⟩ := writeAWSCredentials_ok_inv hv
    exact WriteFile_ok_contentAt hwf
  refine ⟨hcontent w w1 h, fun v v1 hv => (hcontent v v1 hv).trans (hcontent w w1 h).symm,
    writeAWSCredentials_again h, ?_⟩
  intro env roleArn w0 w3 hmain tr
  -- the first run
  rcases hgen : generateGoogleIDToken env "gcp" w0 with ⟨r, u1⟩
  cases r with
  | error err => rw [main_of_token_error hgen] at hmain; cases hmain
  | ok idToken =>
    rcases hrole : assumeAWSRole env roleArn "dataflow" idToken u1 with ⟨r2, u2⟩
    cases r2 with
    | error err => rw [main_of_role_error hgen hrole] at hmain; cases hmain
    | ok creds =>
      rcases hwr : writeAWSCredentials creds path u2 with ⟨o, u3⟩
      cases o with
      | panicked msg => simp [main, hgen, hrole, hwr] at hmain
      | returned e =>
        cases e with
        | some err => rw [main_of_write_error hgen hrole hwr] at hmain; cases hmain
        | none =>
          cases creds with
          | none => simp [writeAWSCredentials] at hwr
          | some c2 =>
            have hw3 : w3.fs = u3.fs := by
              simp only [main, hgen, hrole, hwr, Prod.mk.injEq, true_and] at hmain
              rw [← hmain]; rfl
            -- the second run
            have hgen2 := generateGoogleIDToken_result env "gcp" w0 ⟨w3.fs, tr⟩
            rw [hgen] at hgen2
            rcases hg : generateGoogleIDToken env "gcp" ⟨w3.fs, tr⟩ with ⟨r3, v1⟩
            rw [hg] at hgen2
            simp only at hgen2
            subst hgen2
            have hv1 : v1.fs = w3.fs := by
              have := (generateGoogleIDToken_frame env "gcp" ⟨w3.fs, tr⟩).1
              rw [hg] at this; exact this
            have hrole2 := assumeAWSRole_result env roleArn "dataflow" idToken u1 v1
            rw [hrole] at hrole2
            rcases hr : assumeAWSRole env roleArn "dataflow" idToken v1 with ⟨r4, v2⟩
            rw [hr] at hrole2
            simp only at hrole2
            subst hrole2
            have hv2 : v2.fs = u3.fs := by
              have := (assumeAWSRole_frame env roleArn "dataflow" idToken v1).1
              rw [hr] at this
              exact this.trans (hv1.trans hw3)
            have hagain := writeAWSCredentials_again hwr v2.trace
            rw [← hv2] at hagain
            have hv2eta : (⟨v2.fs, v2.trace⟩ : World) = v2 := rfl
            rw [hv2eta] at hagain
            simp only [main, hg, hr, hagain, World.emit, true_and]
            exact hv2.trans hw3.symm

/-- Witness of C5: the destination holds other content before the run. -/
theorem writeAWSCredentials_overwrites_witness :
    os.contentAt ((rootOnly 0o755).set ["creds"] (.file 0o644 "[old]\nkey = value\n"))
        "/creds" = some "[old]\nkey = value\n" ∧
      os.contentAt (writeAWSCredentials (some exampleCredentials) "/creds"
        ⟨(rootOnly 0o755).set ["creds"] (.file 0o644 "[old]\nkey = value\n"), []⟩).2.fs
        "/creds" = some (credentialsContent exampleCredentials) :=
  ⟨by decide,
    (writeAWSCredentials_overwrites exampleCredentials "/creds"
      ⟨(rootOnly 0o755).set ["creds"] (.file 0o644 "[old]\nkey = value\n"), []⟩
      (writeAWSCredentials (some exampleCredentials) "/creds"
        ⟨(rootOnly 0o755).set ["creds"] (.file 0o644 "[old]\nkey = value\n"), []⟩).2
      (Prod.ext (by decide) rfl)).1⟩

/-! ## Lines of the rendered content -/

theorem lines_append_feed (l rest : List Char) (h : '\n' ∉ l) :
    ini.lines (l ++ '\n' :: rest) = l :: ini.lines rest := by
  induction l with
  | nil => simp [ini.lines]
  | cons c l ih =>
    have hc : c ≠ '\n' := fun hh => h (by simp [hh])
    have hl : '\n' ∉ l := fun hh => h (by simp [hh])
    simp [ini.lines, hc, ih hl]

theorem credentialsContent_data (a s t : String) (exp : Option Nat) :
    (credentialsContent ⟨some a, some s, some t, exp⟩).data =
      "[default]".data ++ '\n' :: (("aws_access_key_id = ".data ++ a.data) ++ '\n' ::
        (("aws_secret_access_key = ".data ++ s.data) ++ '\n' ::
          (("aws_session_token = ".data ++ t.data) ++ '\n' :: []))) := by
  rw [credentialsContent_eq]
  simp [aws.ToString]

/-- The lines of the rendered content, when no field has a line feed. -/
theorem credentialsContent_lines (a s t : String) (exp : Option Nat)
    (ha : singleLine a) (hs : singleLine s) (ht : singleLine t) :
    ini.lines (credentialsContent ⟨some a, some s, some t, exp⟩).data =
      ["[default]".data, "aws_access_key_id = ".data ++ a.data,
        "aws_secret_access_key = ".data ++ s.data, "aws_session_token = ".data ++ t.data] := by
  unfold singleLine at ha hs ht
  rw [credentialsContent_data, lines_append_feed _ _ (by decide),
    lines_append_feed _ _ (by simp [ha]), lines_append_feed _ _ (by simp [hs]),
    lines_append_feed _ _ (by simp [ht])]
  rfl

theorem classify_access (a : String) :
    ini.classify ("aws_access_key_id = ".data ++ a.data) = .keyValue "aws_access_key_id" a := by
  simp [ini.classify, ini.cutAtEquals]

theorem classify_secret (s : String) :
    ini.classify ("aws_secret_access_key = ".data ++ s.data) =
      .keyValue "aws_secret_access_key" s := by
  simp [ini.classify, ini.cutAtEquals]

theorem classify_session (t : String) :
    ini.classify ("aws_session_token = ".data ++ t.data) = .keyValue "aws_session_token" t := by
  simp [ini.classify, ini.cutAtEquals]

theorem classify_default : ini.classify "[default]".data = .header "default" := by decide

theorem credentialsContent_classified (a s t : String) (exp : Option Nat)
    (ha : singleLine a) (hs : singleLine s) (ht : singleLine t) :
    (ini.lines (credentialsContent ⟨some a, some s, some t, exp⟩).data).map ini.classify =
      [.header "default", .keyValue "aws_access_key_id" a,
        .keyValue "aws_secret_access_key" s, .keyValue "aws_session_token" t] := by
  rw [credentialsContent_lines a s t exp ha hs ht]
  show [ini.classify "[default]".data, ini.classify ("aws_access_key_id = ".data ++ a.data),
    ini.classify ("aws_secret_access_key = ".data ++ s.data),
    ini.classify ("aws_session_token = ".data ++ t.data)] = _
  rw [classify_default, classify_access, classify_secret, classify_session]

/-! ## Shape of the file and reading it back (C9, C2) -/

/-- Counterexample to C9 as stated: an access key id with a line feed puts a second
section header into the content, which then has five lines. -/
theorem credentialsContent_extra_section :
    (ini.lines (credentialsContent ⟨some "x\n[evil]", some "s", some "t", none⟩).data).map
        ini.classify =
      [.header "default", .keyValue "aws_access_key_id" "x", .header "evil",
        .keyValue "aws_secret_access_key" "s", .keyValue "aws_session_token" "t"] ∧
    ¬ ∃ k1 v1 k2 v2 k3 v3,
      (ini.lines (credentialsContent ⟨some "x\n[evil]", some "s", some "t", none⟩).data).map
          ini.classify =
        [.header "default", .keyValue k1 v1, .keyValue k2 v2, .keyValue k3 v3] := by
  have h : (ini.lines (credentialsContent ⟨some "x\n[evil]", some "s", some "t", none⟩).data).map
        ini.classify =
      [.header "default", .keyValue "aws_access_key_id" "x", .header "evil",
        .keyValue "aws_secret_access_key" "s", .keyValue "aws_session_token" "t"] := by
    decide
  refine ⟨h, ?_⟩
  rintro ⟨k1, v1, k2, v2, k3, v3, h2⟩
  rw [h] at h2
  simp at h2

/-- The lines of a text are at least as many as its line feeds. -/
theorem count_feed_le_lines (cs : List Char) : cs.count '\n' ≤ (ini.lines cs).length := by
  induction cs with
  | nil => simp [ini.lines]
  | cons c cs ih =>
    by_cases hc : c = '\n'
    · subst hc
      simp only [ini.lines, if_true, List.count_cons_self, List.length_cons]
      omega
    · have hcount : (c :: cs).count '\n' = cs.count '\n' :=
        List.count_cons_of_ne (Ne.symm hc) cs
      rw [hcount]
      simp only [ini.lines, if_neg hc]
      cases hl : ini.lines cs with
      | nil =>
        rw [hl] at ih
        simp only [List.length_nil] at ih
        simp only [List.length_cons]
        omega
      | cons l ls =>
        rw [hl] at ih
        simpa using ih

/-- The line feeds of the rendered content: the four of the template and those of the fields. -/
theorem credentialsContent_feeds (a s t : String) (exp : Option Nat) :
    (credentialsContent ⟨some a, some s, some t, exp⟩).data.count '\n' =
      4 + a.data.count '\n' + s.data.count '\n' + t.data.count '\n' := by
  rw [credentialsContent_data]
  have h1 : "[default]".data.count '\n' = 0 := by decide
  have h2 : "aws_access_key_id = ".data.count '\n' = 0 := by decide
  have h3 : "aws_secret_access_key = ".data.count '\n' = 0 := by decide
  have h4 : "aws_session_token = ".data.count '\n' = 0 := by decide
  simp only [List.count_append, List.count_cons_self, List.count_nil, h1, h2, h3, h4]
  omega

/-- C9, amended: for every triple whose three fields have no line feed, the content has
exactly four lines: the section header `[default]` and then the three key-value lines
of the three keys, in order, each with its field as value; and if a field has a line
feed, the content has more than four lines. -/
theorem credentialsContent_four_lines (a s t : String) (exp : Option Nat) :
    (singleLine a → singleLine s → singleLine t →
      (ini.lines (credentialsContent ⟨some a, some s, some t, exp⟩).data).map String.mk =
          ["[default]", "aws_access_key_id = " ++ a, "aws_secret_access_key = " ++ s,
            "aws_session_token = " ++ t] ∧
        (ini.lines (credentialsContent ⟨some a, some s, some t, exp⟩).data).map ini.classify =
          [.header "default", .keyValue "aws_access_key_id" a,
            .keyValue "aws_secret_access_key" s, .keyValue "aws_session_token" t] ∧
        ((ini.lines (credentialsContent ⟨some a, some s, some t, exp⟩).data).map
          ini.classify).countP ini.Line.isHeader = 1) ∧
      (¬ singleLine a ∨ ¬ singleLine s ∨ ¬ singleLine t →
        4 < (ini.lines (credentialsContent ⟨some a, some s, some t, exp⟩).data).length) := by
  constructor
  · intro ha hs ht
    refine ⟨?_, credentialsContent_classified a s t exp ha hs ht, ?_⟩
    · rw [credentialsContent_lines a s t exp ha hs ht]
      rfl
    · rw [credentialsContent_classified a s t exp ha hs ht]
      rfl
  · intro hfeed
    have hle := count_feed_le_lines (credentialsContent ⟨some a, some s, some t, exp⟩).data
    rw [credentialsContent_feeds] at hle
    have hpos : ∀ u : String, ¬ singleLine u → 0 < u.data.count '\n' := by
      intro u hu
      unfold singleLine at hu
      exact List.count_pos_iff.2 (not_not.1 hu)
    rcases hfeed with h | h | h
    · have := hpos a h
      omega
    · have := hpos s h
      omega
    · have := hpos t h
      omega

/-- Witness of C9, amended: the triple of the scenario in the spec has the four lines,
and a secret key with a line feed gives more. -/
theorem credentialsContent_four_lines_witness :
    (ini.lines (credentialsContent exampleCredentials).data).map String.mk =
        ["[default]", "aws_access_key_id = AKIA_EXAMPLE", "aws_secret_access_key = secret123",
          "aws_session_token = sessiontokenXYZ"] ∧
      4 < (ini.lines (credentialsContent ⟨some "a", some "s\nu", some "t", none⟩).data).length :=
  ⟨((credentialsContent_four_lines "AKIA_EXAMPLE" "secret123" "sessiontokenXYZ" none).1
      (by decide) (by decide) (by decide)).1,
    (credentialsContent_four_lines "a" "s\nu" "t" none).2 (Or.inr (Or.inl (by decide)))⟩

/-- Counterexample to C2 as stated: with a line feed in the access key id the file is
written, and read back it gives another access key id and no secret key in the
`default` profile. -/
theorem roundtrip_fails_on_line_feed :
    (writeAWSCredentials (some ⟨some "x\n[evil]", some "s", some "t", none⟩) "/creds"
        ⟨rootOnly 0o755, []⟩).1 = .returned none ∧
      os.contentAt (writeAWSCredentials (some ⟨some "x\n[evil]", some "s", some "t", none⟩)
        "/creds" ⟨rootOnly 0o755, []⟩).2.fs "/creds" =
        some (credentialsContent ⟨some "x\n[evil]", some "s", some "t", none⟩) ∧
      ini.get (credentialsContent ⟨some "x\n[evil]", some "s", some "t", none⟩)
        "default" "aws_access_key_id" = some "x" ∧
      ini.get (credentialsContent ⟨some "x\n[evil]", some "s", some "t", none⟩)
        "default" "aws_secret_access_key" = none := by
  decide

/-- C2, amended: for every triple whose three fields have no line feed, the file a
successful `writeAWSCredentials` leaves at the destination, read back as a credentials
file, gives in its `default` profile exactly the three fields. -/
theorem writeAWSCredentials_roundtrip (a s t : String) (exp : Option Nat) (path : String)
    (w w1 : World) (ha : singleLine a) (hs : singleLine s) (ht : singleLine t)
    (h : writeAWSCredentials (some ⟨some a, some s, some t, exp⟩) path w = (.returned none, w1)) :
    ∃ content, os.contentAt w1.fs path = some content ∧
      ini.get content "default" "aws_access_key_id" = some a ∧
      ini.get content "default" "aws_secret_access_key" = some s ∧
      ini.get content "default" "aws_session_token" = some t := by
  obtain ⟨fs1, -, hwf, -⟩ := writeAWSCredentials_ok_inv h
  refine ⟨credentialsContent ⟨some a, some s, some t, exp⟩, WriteFile_ok_contentAt hwf, ?_⟩
  have hc := credentialsContent_classified a s t exp ha hs ht
  unfold ini.get
  rw [hc]
  exact ⟨rfl, rfl, rfl⟩

/-- Witness of C2, amended: the scenario of the spec. -/
theorem writeAWSCredentials_roundtrip_witness :
    ∃ content, os.contentAt (writeAWSCredentials (some exampleCredentials)
        "/tmp/out/credentials" ⟨rootOnly 0o755, []⟩).2.fs "/tmp/out/credentials" = some content ∧
      ini.get content "default" "aws_access_key_id" = some "AKIA_EXAMPLE" ∧
      ini.get content "default" "aws_secret_access_key" = some "secret123" ∧
      ini.get content "default" "aws_session_token" = some "sessiontokenXYZ" :=
  writeAWSCredentials_roundtrip "AKIA_EXAMPLE" "secret123" "sessiontokenXYZ" none
    "/tmp/out/credentials" ⟨rootOnly 0o755, []⟩
    (writeAWSCredentials (some exampleCredentials) "/tmp/out/credentials" ⟨rootOnly 0o755, []⟩).2
    (by decide) (by decide) (by decide) (Prod.ext (by decide) rfl)

/-! ## Error reports (C8) -/

/-- Counterexample to C8 as stated: the line `main` logs when no token source can be
created does not name the audience `gcp`, and the line it logs when the exchange service
rejects the request does not name the role identifier. -/
theorem main_report_omits_audience_and_role :
    (main (identityUnavailable "boom") "arn:aws:iam::123456789012:role/example" "/creds"
        ⟨rootOnly 0o755, []⟩).2.trace =
      [.NewTokenSource "gcp",
        .Log "failed to generate Google ID token: error creating token source: boom"] ∧
    occursIn "gcp" "failed to generate Google ID token: error creating token source: boom" =
      false ∧
    (main (exchangeRejects "tok" "denied") "arn:aws:iam::123456789012:role/example" "/creds"
        ⟨rootOnly 0o755, []⟩).2.trace.getLast? =
      some (.Log "failed to assume AWS role: error assuming role: denied ") ∧
    occursIn "arn:aws:iam::123456789012:role/example"
      "failed to assume AWS role: error assuming role: denied " = false := by
  decide

theorem getLast_emit (w : World) (e : Event) : (w.emit e).trace.getLast? = some e := by
  simp [World.emit]

/-- C8, amended: at each of the six failure points `main` exits with status 1 and the
last thing it does is log one line, made of the stage context of `main`, the context of
the failing operation, and the underlying cause. The stage context of the third stage
names the destination path, and the context of a failed directory creation names the
directory; the context of the other four failure points is a fixed text, with no
operand for the audience or the role identifier. -/
theorem main_reports_wrapped_errors (env : Env) (roleArn outputPath : String) (w : World) :
    (∀ e, env.NewTokenSource "gcp" = .error e →
      (main env roleArn outputPath w).1 = 1 ∧
        (main env roleArn outputPath w).2.trace.getLast? = some (.Log
          ("failed to generate Google ID token: " ++ ("error creating token source: " ++ e)))) ∧
    (∀ ts e, env.NewTokenSource "gcp" = .ok ts → ts.Token = .error e →
      (main env roleArn outputPath w).1 = 1 ∧
        (main env roleArn outputPath w).2.trace.getLast? = some (.Log
          ("failed to generate Google ID token: " ++ ("error retrieving token: " ++ e)))) ∧
    (∀ idToken w1 e, generateGoogleIDToken env "gcp" w = (.ok idToken, w1) →
      env.LoadDefaultConfig [.WithCredentialsProvider .AnonymousCredentials] = .error e →
      (main env roleArn outputPath w).1 = 1 ∧
        (main env roleArn outputPath w).2.trace.getLast? = some (.Log
          ("failed to assume AWS role: " ++ ("error loading config: " ++ e ++ " ")))) ∧
    (∀ idToken w1 cfg e, generateGoogleIDToken env "gcp" w = (.ok idToken, w1) →
      env.LoadDefaultConfig [.WithCredentialsProvider .AnonymousCredentials] = .ok cfg →
      env.AssumeRoleWithWebIdentity cfg ⟨some roleArn, some "dataflow", some idToken⟩ = .error e →
      (main env roleArn outputPath w).1 = 1 ∧
        (main env roleArn outputPath w).2.trace.getLast? = some (.Log
          ("failed to assume AWS role: " ++ ("error assuming role: " ++ e ++ " ")))) ∧
    (∀ idToken w1 c w2 e fs1, generateGoogleIDToken env "gcp" w = (.ok idToken, w1) →
      assumeAWSRole env roleArn "dataflow" idToken w1 = (.ok (some c), w2) →
      os.MkdirAll (filepath.Dir outputPath) 0o755 w2.fs = (.error e, fs1) →
      (main env roleArn outputPath w).1 = 1 ∧
        (main env roleArn outputPath w).2.trace.getLast? = some (.Log
          ("failed to write AWS credentials to " ++ outputPath ++ ": " ++
            ("error creating directory " ++ filepath.Dir outputPath ++ ": " ++ e)))) ∧
    (∀ idToken w1 c w2 e fs1 fs2, generateGoogleIDToken env "gcp" w = (.ok idToken, w1) →
      assumeAWSRole env roleArn "dataflow" idToken w1 = (.ok (some c), w2) →
      os.MkdirAll (filepath.Dir outputPath) 0o755 w2.fs = (.ok (), fs1) →
      os.WriteFile outputPath (credentialsContent c) 0o644 fs1 = (.error e, fs2) →
      (main env roleArn outputPath w).1 = 1 ∧
        (main env roleArn outputPath w).2.trace.getLast? = some (.Log
          ("failed to write AWS credentials to " ++ outputPath ++ ": " ++
            ("error writing file: " ++ e ++ " ")))) := by
  refine ⟨?_, ?_, ?_, ?_, ?_, ?_⟩
  · intro e he
    have hgen : generateGoogleIDToken env "gcp" w =
        (.error ("error creating token source: " ++ e), w.emit (.NewTokenSource "gcp")) := by
      simp only [generateGoogleIDToken, he, Errorf_tokenSource]
    rw [main_of_token_error hgen]
    exact ⟨rfl, getLast_emit _ _⟩
  · intro ts e hts he
    have hgen : generateGoogleIDToken env "gcp" w =
        (.error ("error retrieving token: " ++ e),
          (w.emit (.NewTokenSource "gcp")).emit .Token) := by
      simp only [generateGoogleIDToken, hts, he, Errorf_token]
    rw [main_of_token_error hgen]
    exact ⟨rfl, getLast_emit _ _⟩
  · intro idToken w1 e hgen he
    have hrole : assumeAWSRole env roleArn "dataflow" idToken w1 =
        (.error ("error loading config: " ++ e ++ " "),
          w1.emit (.LoadDefaultConfig [.WithCredentialsProvider .AnonymousCredentials])) := by
      simp only [assumeAWSRole, he, Errorf_config]
    rw [main_of_role_error hgen hrole]
    exact ⟨rfl, getLast_emit _ _⟩
  · intro idToken w1 cfg e hgen hcfg he
    have hrole : assumeAWSRole env roleArn "dataflow" idToken w1 =
        (.error ("error assuming role: " ++ e ++ " "),
          (w1.emit (.LoadDefaultConfig [.WithCredentialsProvider .AnonymousCredentials])).emit
            (.AssumeRoleWithWebIdentity ⟨some roleArn, some "dataflow", some idToken⟩)) := by
      simp only [assumeAWSRole, hcfg, he, Errorf_role]
    rw [main_of_role_error hgen hrole]
    exact ⟨rfl, getLast_emit _ _⟩
  · intro idToken w1 c w2 e fs1 hgen hrole hmk
    have hwr : writeAWSCredentials (some c) outputPath w2 =
        (.returned (some ("error creating directory " ++ filepath.Dir outputPath ++ ": " ++ e)),
          ⟨fs1, w2.trace ++ [.MkdirAll (filepath.Dir outputPath) 0o755]⟩) := by
      rw [writeAWSCredentials_some, hmk]
    rw [main_of_write_error hgen hrole hwr]
    exact ⟨rfl, getLast_emit _ _⟩
  · intro idToken w1 c w2 e fs1 fs2 hgen hrole hmk hwf
    have hwr : writeAWSCredentials (some c) outputPath w2 =
        (.returned (some ("error writing file: " ++ e ++ " ")),
          ⟨fs2, w2.trace ++ [.MkdirAll (filepath.Dir outputPath) 0o755,
            .WriteFile outputPath (credentialsContent c) 0o644]⟩) := by
      rw [writeAWSCredentials_some, hmk]
      simp only
      rw [hwf]
    rw [main_of_write_error hgen hrole hwr]
    exact ⟨rfl, getLast_emit _ _⟩

/-- Witness of C8, amended: the directory of `/readonly/creds` cannot be created; the
line names the destination path and the directory. -/
theorem main_reports_wrapped_errors_witness :
    (main (servicesUp "tok" (some exampleCredentials)) "arn:aws:iam::123456789012:role/example"
        "/readonly/creds" ⟨rootOnly 0o555, []⟩).1 = 1 ∧
      (main (servicesUp "tok" (some exampleCredentials)) "arn:aws:iam::123456789012:role/example"
        "/readonly/creds" ⟨rootOnly 0o555, []⟩).2.trace.getLast? = some (.Log
          ("failed to write AWS credentials to " ++ "/readonly/creds" ++ ": " ++
            ("error creating directory " ++ filepath.Dir "/readonly/creds" ++ ": " ++
              "mkdir /readonly: permission denied"))) :=
  (main_reports_wrapped_errors (servicesUp "tok" (some exampleCredentials))
    "arn:aws:iam::123456789012:role/example" "/readonly/creds"
    ⟨rootOnly 0o555, []⟩).2.2.2.2.1 "tok" _ exampleCredentials _
    "mkdir /readonly: permission denied" (rootOnly 0o555) rfl rfl rfl

end Federation
